import Mathlib

/-!
Verification development for the transparent-poker server.

This file shallowly embeds the parts of the source relevant to the checked
properties and proves theorems about them:

* the length-prefixed wire codec, server side (`src/net/server.rs`,
  `try_decode_message`) and client side (`src/net/client.rs`), together with
  `encode_message` (`src/net/protocol.rs`);
* the per-seat view projection `filter_event_for_seat` (`src/net/server.rs`);
* the betting-mask construction and action conversion of `PlayerAdapter`
  (`src/engine/adapter.rs`) and the remote player port
  (`src/net/remote_player.rs`);
* the rake computation of `EventHistorian::record_action`
  (`src/engine/historian.rs`);
* the bankroll ledger `Bank` (`src/bank.rs`);
* the table-room lifecycle of the server dispatcher (`src/net/server.rs`,
  `process_message`), modelled as a step function on a single table room.

Conventions: Rust `f32` money amounts are modelled as exact rationals
(the verified properties are arithmetic-structural, not about float
rounding); Rust `String` identifiers are modelled as `List Char`; Rust
`HashMap` is modelled as an association list whose iteration order is the
list order (Rust's `HashMap` iteration order is arbitrary; one order is
fixed here).
-/

namespace TPoker

/-! ### Generic helpers: characters and association lists -/

/-- Auxiliary: `Char.ofNat` of a valid code point decodes back to it. -/
theorem toNat_ofNat_of_valid (n : Nat) (h : n.isValidChar) : (Char.ofNat n).toNat = n := by
  simp [Char.ofNat, h, Char.ofNatAux, Char.toNat, UInt32.toNat]

/-- Auxiliary: unfolding of core `Char.toLower` (ASCII only). -/
theorem toLower_eq (c : Char) :
    c.toLower = if c.toNat ≥ 65 ∧ c.toNat ≤ 90 then Char.ofNat (c.toNat + 32) else c := rfl

/-- `Char.toLower` is idempotent. -/
theorem char_toLower_idem (c : Char) : c.toLower.toLower = c.toLower := by
  by_cases h : c.toNat ≥ 65 ∧ c.toNat ≤ 90
  · have hv : (c.toNat + 32).isValidChar := Or.inl (by omega)
    have h2 : ¬(c.toNat + 32 ≥ 65 ∧ c.toNat + 32 ≤ 90) := by omega
    rw [toLower_eq c, if_pos h, toLower_eq, toNat_ofNat_of_valid _ hv, if_neg h2]
  · rw [toLower_eq c, if_neg h, toLower_eq c, if_neg h]

/-- Association-list lookup (model of `HashMap::get`). -/
def alist_lookup {α : Type} : List (Nat × α) → Nat → Option α
  | [], _ => none
  | (k', v) :: rest, k => if k' = k then some v else alist_lookup rest k

/-- Association-list insert (model of `HashMap::insert`): replace in place,
else append. -/
def alist_insert {α : Type} : List (Nat × α) → Nat → α → List (Nat × α)
  | [], k, v => [(k, v)]
  | (k', v') :: rest, k, v =>
    if k' = k then (k, v) :: rest else (k', v') :: alist_insert rest k v

/-- Association-list removal (model of `HashMap::remove`; a `HashMap` has
unique keys, so dropping every pair with the key is the same removal). -/
def alist_remove {α : Type} : List (Nat × α) → Nat → List (Nat × α)
  | [], _ => []
  | (k', v') :: rest, k =>
    if k' = k then alist_remove rest k else (k', v') :: alist_remove rest k

theorem alist_lookup_insert_self {α : Type} (l : List (Nat × α)) (k : Nat) (v : α) :
    alist_lookup (alist_insert l k v) k = some v := by
  induction l with
  | nil => simp [alist_insert, alist_lookup]
  | cons hd tl ih =>
    obtain ⟨k', v'⟩ := hd
    by_cases h : k' = k
    · simp [alist_insert, alist_lookup, h]
    · simp [alist_insert, alist_lookup, h, ih]

theorem alist_lookup_insert_ne {α : Type} (l : List (Nat × α)) (k k' : Nat) (v : α)
    (h : k' ≠ k) : alist_lookup (alist_insert l k v) k' = alist_lookup l k' := by
  have hne : ¬k = k' := fun hh => h hh.symm
  induction l with
  | nil =>
    simp only [alist_insert, alist_lookup]
    rw [if_neg hne]
  | cons hd tl ih =>
    obtain ⟨k0, v0⟩ := hd
    by_cases h0 : k0 = k
    · subst h0
      simp only [alist_insert, if_pos rfl, alist_lookup]
      rw [if_neg hne, if_neg hne]
    · simp only [alist_insert, if_neg h0, alist_lookup, ih]

/-- A value found by lookup is among the list's values. -/
theorem alist_lookup_mem_values {α : Type} (l : List (Nat × α)) (k : Nat) (v : α)
    (h : alist_lookup l k = some v) : v ∈ l.map Prod.snd := by
  induction l with
  | nil => simp [alist_lookup] at h
  | cons hd tl ih =>
    obtain ⟨k0, v0⟩ := hd
    by_cases h0 : k0 = k
    · simp [alist_lookup, h0] at h
      simp [h]
    · simp [alist_lookup, h0] at h
      simp [ih h]

/-! ### Wire codec

`encode_message` (`src/net/protocol.rs`, lines 115-121) serializes the
message to JSON with serde, takes the byte length as `u32` (a wrapping
cast), and prepends the 4-byte big-endian length.  The JSON body is
abstracted as the byte list produced by the (external) serde layer; the
decoders are parameterized by the serde parse function. -/

def MAX_MESSAGE_SIZE : Nat := 65536

/-- Big-endian bytes of a `u32` (`u32::to_be_bytes`). -/
def u32_be (n : Nat) : List Nat :=
  [n / 2 ^ 24 % 256, n / 2 ^ 16 % 256, n / 2 ^ 8 % 256, n % 256]

/-- `encode_message`: 4-byte big-endian length prefix (the `as u32` cast wraps
mod 2^32) followed by the JSON body bytes. -/
def encode_message (body : List Nat) : List Nat :=
  u32_be (body.length % 2 ^ 32) ++ body

/-- `decode_length` (`src/net/protocol.rs`, lines 123-128): `None` on fewer
than 4 bytes, else the big-endian `u32` of the first four. -/
def decode_length (buf : List Nat) : Option Nat :=
  match buf with
  | b0 :: b1 :: b2 :: b3 :: _ => some (b0 * 2 ^ 24 + b1 * 2 ^ 16 + b2 * 2 ^ 8 + b3)
  | _ => none

/-- Server-side `try_decode_message` (`src/net/server.rs`, lines 441-456),
parameterized by the serde parse of the frame body.  Returns the decode
result together with the buffer left behind (the source mutates `buf` in
place).  Oversize declared lengths clear the buffer; the frame is drained
before parsing, so a parse failure still consumes the frame. -/
def try_decode_message {α : Type} (parse : List Nat → Option α) (buf : List Nat) :
    Option α × List Nat :=
  if buf.length < 4 then (none, buf)
  else
    match decode_length buf with
    | none => (none, buf)
    | some len =>
      if len > MAX_MESSAGE_SIZE then (none, [])
      else if buf.length < 4 + len then (none, buf)
      else (parse ((buf.drop 4).take len), buf.drop (4 + len))

/-- Client-side `try_decode_message` (`src/net/client.rs`, lines 115-126):
identical framing but with no `MAX_MESSAGE_SIZE` check. -/
def try_decode_message_client {α : Type} (parse : List Nat → Option α) (buf : List Nat) :
    Option α × List Nat :=
  if buf.length < 4 then (none, buf)
  else
    match decode_length buf with
    | none => (none, buf)
    | some len =>
      if buf.length < 4 + len then (none, buf)
      else (parse ((buf.drop 4).take len), buf.drop (4 + len))

/-- Decoding the length prefix written by `u32_be` recovers `n` for `n < 2^32`. -/
theorem decode_length_u32_be (n : Nat) (rest : List Nat) (h : n < 2 ^ 32) :
    decode_length (u32_be n ++ rest) = some n := by
  simp only [u32_be, List.cons_append, List.nil_append, decode_length]
  congr 1
  omega

/-! ### Game events and the per-seat view projection

Embedding of `src/events/types.rs` (money as rationals, strings kept,
seats as naturals) and of `filter_event_for_seat` (`src/net/server.rs`,
lines 1237-1254). -/

abbrev Seat := Nat

structure Card where
  rank : Char
  suit : Char
deriving DecidableEq, Repr

inductive Street
  | Preflop
  | Flop
  | Turn
  | River
  | Showdown
deriving DecidableEq, Repr

inductive Position
  | Button
  | SmallBlind
  | BigBlind
  | None
deriving DecidableEq, Repr

inductive BettingStructure
  | NoLimit
  | PotLimit
  | FixedLimit
deriving DecidableEq, Repr

structure GameConfig where
  betting_structure : BettingStructure
  small_blind : ℚ
  big_blind : ℚ
  starting_stack : ℚ
  max_players : Nat
  time_bank : Option Nat
deriving DecidableEq, Repr

structure SeatInfo where
  seat : Seat
  name : List Char
  stack : ℚ
  position : Position
  is_active : Bool
  is_human : Bool
deriving DecidableEq, Repr

structure Blinds where
  small : ℚ
  big : ℚ
  ante : Option ℚ
deriving DecidableEq, Repr

inductive BlindType
  | Small
  | Big
  | Ante
  | Straddle
deriving DecidableEq, Repr

inductive RaiseOptions
  | Fixed (amount : ℚ)
  | Variable (min_raise max_raise : ℚ)
deriving DecidableEq, Repr

structure ValidActions where
  can_fold : Bool
  can_check : Bool
  call_amount : Option ℚ
  raise_options : Option RaiseOptions
  can_all_in : Bool
  all_in_amount : ℚ
deriving DecidableEq, Repr

inductive PlayerAction
  | Fold
  | Check
  | Call (amount : ℚ)
  | Bet (amount : ℚ)
  | Raise (amount : ℚ)
  | AllIn (amount : ℚ)
  | Timeout
deriving DecidableEq, Repr

inductive PotType
  | Main
  | Side (n : Nat)
deriving DecidableEq, Repr

structure HandResult where
  seat : Seat
  stack_change : ℚ
  final_stack : ℚ
  showed_cards : Option (Card × Card)
  hand_description : Option (List Char)
deriving DecidableEq, Repr

inductive LeaveReason
  | Quit
  | Disconnected
  | Eliminated
  | Spectating
  | Kicked
deriving DecidableEq, Repr

inductive GameEndReason
  | Winner
  | AllPlayersLeft
  | HostTerminated
  | Error
deriving DecidableEq, Repr

structure Standing where
  seat : Seat
  name : List Char
  final_stack : ℚ
  finish_position : Nat
deriving DecidableEq, Repr

inductive ChatSender
  | System
  | Dealer
  | Player (seat : Seat)
  | Spectator (name : List Char)
deriving DecidableEq, Repr

inductive AdminActionType
  | Spectate
  | LeaveGame
  | KillGame
  | Pause
  | Resume
deriving DecidableEq, Repr

inductive GameEvent
  | GameCreated (game_id : Nat) (config : GameConfig)
  | PlayerJoined (seat : Seat) (name : List Char) (stack : ℚ) (is_human : Bool)
  | PlayerLeft (seat : Seat) (reason : LeaveReason)
  | GameStarted (seats : List SeatInfo)
  | HandStarted (hand_id : Nat) (hand_num : Nat) (button : Seat) (blinds : Blinds)
      (seats : List SeatInfo)
  | HoleCardsDealt (seat : Seat) (cards : Card × Card)
  | BlindPosted (seat : Seat) (blind_type : BlindType) (amount : ℚ)
  | StreetChanged (street : Street) (board : List Card)
  | ActionRequest (seat : Seat) (valid_actions : ValidActions) (time_limit : Option Nat)
  | ActionTaken (seat : Seat) (action : PlayerAction) (stack_after pot_after : ℚ)
  | PotAwarded (seat : Seat) (amount : ℚ) (hand_description : Option (List Char))
      (pot_type : PotType)
  | ShowdownReveal (reveals : List (Seat × (Card × Card)))
  | HandEnded (hand_id : Nat) (results : List HandResult)
  | GameEnded (reason : GameEndReason) (final_standings : List Standing)
  | ChatMessage (sender : ChatSender) (text : List Char)
  | AdminAction (seat : Option Seat) (action : AdminActionType)
deriving DecidableEq, Repr

/-- `filter_event_for_seat` (`src/net/server.rs`, lines 1237-1254): the only
place information asymmetry is enforced.  A `HoleCardsDealt` for another
seat is replaced by two face-down placeholder cards; everything else is
passed through (cloned) unchanged. -/
def filter_event_for_seat (event : GameEvent) (seat : Seat) : GameEvent :=
  match event with
  | GameEvent.HoleCardsDealt dealt_seat _ =>
    if dealt_seat = seat then event
    else GameEvent.HoleCardsDealt dealt_seat
      (Card.mk '?' '?', Card.mk '?' '?')
  | _ => event

/-- Discriminator used to state the view-projection property. -/
def is_hole_cards_dealt : GameEvent → Bool
  | GameEvent.HoleCardsDealt _ _ => true
  | _ => false

/-! ### Player adapter (`src/engine/adapter.rs`)

`PlayerAdapter` mediates between the `rs_poker` engine and a `PlayerPort`.
The engine-side `GameState` accessors the adapter reads are modelled as a
record of the values they return at the decision point. -/

/-- `rs_poker::arena::game_state::Round`; the variants the adapter matches
on, with every other engine round collapsed into `OtherRound` (the source
maps those to `Street::Preflop` through its catch-all arm). -/
inductive Round
  | Preflop
  | Flop
  | Turn
  | River
  | Showdown
  | OtherRound
deriving DecidableEq, Repr

/-- `convert_round` (`src/engine/adapter.rs`, lines 278-287). -/
def convert_round : Round → Street
  | Round.Preflop => Street.Preflop
  | Round.Flop => Street.Flop
  | Round.Turn => Street.Turn
  | Round.River => Street.River
  | Round.Showdown => Street.Showdown
  | Round.OtherRound => Street.Preflop

/-- `rs_poker::arena::action::AgentAction`: the action type the adapter
returns to the engine. -/
inductive AgentAction
  | Fold
  | Call
  | Bet (amount : ℚ)
  | AllIn
deriving DecidableEq, Repr

/-- `PlayerResponse` (`src/players/port.rs`): a port's answer.  The `Admin`
payload is irrelevant here (the adapter ignores it). -/
inductive PlayerResponse
  | Action (action : PlayerAction)
  | Admin
  | Timeout
deriving DecidableEq, Repr

/-- An entry of the shared action history (`src/players`, `ActionRecord`). -/
structure ActionRecord where
  seat : Seat
  action : PlayerAction
  street : Street
deriving DecidableEq, Repr

/-- The `rs_poker` `GameState` values read by `build_valid_actions` and
`compute_raise_options` at one decision point: the acting seat's stack
(`game_state.stacks[self.seat.0]`), `current_round_bet()`,
`current_round_current_player_bet()`, `current_round_min_raise()`,
`game_state.round`, `game_state.big_blind` and `game_state.total_pot`. -/
structure GameStateView where
  stack : ℚ
  current_bet : ℚ
  my_bet : ℚ
  min_raise : ℚ
  round : Round
  big_blind : ℚ
  total_pot : ℚ
deriving DecidableEq, Repr

/-- `PlayerAdapter::count_raises_this_round` (`src/engine/adapter.rs`, lines
119-127): raises plus bets recorded for the current street. -/
def count_raises_this_round (history : List ActionRecord) (current_street : Street) : Nat :=
  ((history.filter (fun a => a.street = current_street)).filter
    (fun a =>
      match a.action with
      | PlayerAction.Raise _ => true
      | PlayerAction.Bet _ => true
      | _ => false)).length

/-- `PlayerAdapter::compute_raise_options` (`src/engine/adapter.rs`, lines
129-186). -/
def compute_raise_options (betting_structure : BettingStructure) (gs : GameStateView)
    (stack current_bet min_raise : ℚ) : Option RaiseOptions :=
  let my_bet := gs.my_bet
  let can_afford_raise := stack > current_bet - my_bet
  if ¬can_afford_raise then none
  else
    match betting_structure with
    | BettingStructure.FixedLimit =>
      let bet_size :=
        match gs.round with
        | Round.Preflop => gs.big_blind
        | Round.Flop => gs.big_blind
        | _ => gs.big_blind * 2
      let raise_to := current_bet + bet_size
      if stack + my_bet ≥ raise_to then some (RaiseOptions.Fixed raise_to) else none
    | BettingStructure.PotLimit =>
      let pot := gs.total_pot
      let to_call := current_bet - my_bet
      let max_raise := pot + to_call * 2
      let min_raise_to := current_bet + min_raise
      let max_raise_to := min (current_bet + max_raise) (stack + my_bet)
      if max_raise_to ≥ min_raise_to then
        some (RaiseOptions.Variable min_raise_to max_raise_to)
      else none
    | BettingStructure.NoLimit =>
      let min_raise_to := current_bet + min_raise
      let max_raise_to := stack + my_bet
      if max_raise_to ≥ min_raise_to then
        some (RaiseOptions.Variable min_raise_to max_raise_to)
      else none

/-- `PlayerAdapter::build_valid_actions` (`src/engine/adapter.rs`, lines
85-117).  Note the raise cap test `raises_this_round >= max_raises_per_round`
is on unsigned integers with no special case for a zero cap. -/
def build_valid_actions (betting_structure : BettingStructure) (max_raises_per_round : Nat)
    (history : List ActionRecord) (gs : GameStateView) : ValidActions :=
  let stack := gs.stack
  let current_bet := gs.current_bet
  let my_bet := gs.my_bet
  let to_call := current_bet - my_bet
  let min_raise := gs.min_raise
  let can_check := decide (to_call ≤ 0)
  let call_amount := if to_call > 0 then some (min to_call stack) else none
  let current_street := convert_round gs.round
  let raises_this_round := count_raises_this_round history current_street
  let raise_cap_reached := decide (raises_this_round ≥ max_raises_per_round)
  let raise_options :=
    if raise_cap_reached then none
    else compute_raise_options betting_structure gs stack current_bet min_raise
  { can_fold := decide (to_call > 0)
    can_check := can_check
    call_amount := call_amount
    raise_options := raise_options
    can_all_in := decide (stack > 0) && !raise_cap_reached
    all_in_amount := stack + my_bet }

/-- `PlayerAdapter::convert_action` (`src/engine/adapter.rs`, lines 223-241).
Fold maps to Fold; Check, Call map to the engine's Call; a Bet or Raise
passes its amount straight through as `AgentAction::Bet`; AllIn maps to
AllIn; a Timeout action is substituted with Call (a check) when checking is
legal and Fold otherwise. -/
def convert_action (action : PlayerAction) (valid : ValidActions) : AgentAction :=
  match action with
  | PlayerAction.Fold => AgentAction.Fold
  | PlayerAction.Check => AgentAction.Call
  | PlayerAction.Call _ => AgentAction.Call
  | PlayerAction.Bet amount => AgentAction.Bet amount
  | PlayerAction.Raise amount => AgentAction.Bet amount
  | PlayerAction.AllIn _ => AgentAction.AllIn
  | PlayerAction.Timeout =>
    if valid.can_check then AgentAction.Call else AgentAction.Fold

/-- `PlayerAdapter::convert_response` (`src/engine/adapter.rs`, lines
203-221). -/
def convert_response (response : PlayerResponse) (valid : ValidActions) : AgentAction :=
  match response with
  | PlayerResponse.Action action => convert_action action valid
  | PlayerResponse.Admin =>
    if valid.can_check then AgentAction.Call else AgentAction.Fold
  | PlayerResponse.Timeout =>
    if valid.can_check then AgentAction.Call else AgentAction.Fold

/-- The receive step of `PlayerAdapter::act` (`src/engine/adapter.rs`, lines
263-274): `rx.recv()` yields either a response (`Ok`) or an error because
the sender was dropped (`Err`), modelled as `none`. -/
def resolve_recv (received : Option PlayerResponse) (valid : ValidActions) : AgentAction :=
  match received with
  | some response => convert_response response valid
  | none => if valid.can_check then AgentAction.Call else AgentAction.Fold

/-- `RemotePlayer::request_action` (`src/net/remote_player.rs`, lines 27-38):
a blocking receive with a 120-second timeout; `none` models the
`recv_timeout` error (timeout elapsed or the send end dropped). -/
def remote_request_action (received : Option PlayerAction) : PlayerResponse :=
  match received with
  | some action => PlayerResponse.Action action
  | none => PlayerResponse.Timeout

/-! ### Rake (`src/engine/historian.rs`)

The `Action::Award` arm of `EventHistorian::record_action` (lines 279-305)
computes the net amount broadcast in `PotAwarded`. -/

structure RakeConfig where
  percent : ℚ
  cap : Option ℚ
  no_flop_no_drop : Bool
deriving DecidableEq, Repr

/-- Rust `f32::round`: round half away from zero. -/
def rust_round (x : ℚ) : ℤ :=
  if x ≥ 0 then ⌊x + 1 / 2⌋ else -⌊-x + 1 / 2⌋

/-- The rounding step `(rake * 100.0).round() / 100.0`. -/
def round_cents (x : ℚ) : ℚ :=
  (rust_round (x * 100) : ℚ) / 100

/-- The net pot amount computed by the `Action::Award` arm (lines 282-297):
`saw_flop` is whether street key 1 (the flop) is in `emitted_streets`,
which happens exactly when a `RoundAdvance(Flop)` was recorded. -/
def award_net (cfg : RakeConfig) (saw_flop : Bool) (award_amount : ℚ) : ℚ :=
  if cfg.percent > 0 ∧ (¬cfg.no_flop_no_drop ∨ saw_flop = true) then
    let rake0 := award_amount * cfg.percent
    let rake1 :=
      match cfg.cap with
      | some cap => min rake0 cap
      | none => rake0
    let rake := round_cents rake1
    award_amount - rake
  else award_amount

/-- The `PotAwarded` event emitted for an award (lines 299-304): its amount
is the net (post-rake) amount. -/
def record_award_event (cfg : RakeConfig) (saw_flop : Bool) (idx : Seat)
    (award_amount : ℚ) (hand_desc : Option (List Char)) : GameEvent :=
  GameEvent.PotAwarded idx (award_net cfg saw_flop award_amount) hand_desc PotType.Main

/-- The rake as the specification describes it: `min(pot * rake_percent,
rake_cap or infinity)` rounded to cents, zero when `rake_percent` is zero
and zero when `no_flop_no_drop` is set and no flop was dealt.  Written from
the spec's words, for comparison with `award_net`. -/
def rake_per_spec (cfg : RakeConfig) (saw_flop : Bool) (award_amount : ℚ) : ℚ :=
  if cfg.percent = 0 then 0
  else if cfg.no_flop_no_drop ∧ saw_flop = false then 0
  else
    round_cents
      (match cfg.cap with
       | some cap => min (award_amount * cfg.percent) cap
       | none => award_amount * cfg.percent)

/-! ### Bank (`src/bank.rs`)

Profiles are a map from lowercased id to bankroll; the map is modelled as a
function `List Char → Option ℚ` (Rust `HashMap<String, PlayerProfile>`). -/

/-- `normalize_id` (`src/bank.rs`, lines 59-61): lowercase the id. -/
def normalize_id (id : List Char) : List Char := id.map Char.toLower

structure InsufficientFunds where
  player_id : List Char
  required : ℚ
  available : ℚ
deriving DecidableEq, Repr

structure Bank where
  profiles : List Char → Option ℚ
  default_bankroll : ℚ

/-- `Bank::get_bankroll` (`src/bank.rs`, lines 116-122). -/
def Bank.get_bankroll (b : Bank) (id : List Char) : ℚ :=
  match b.profiles (normalize_id id) with
  | some bankroll => bankroll
  | none => b.default_bankroll

/-- `Bank::profile_exists` (`src/bank.rs`, lines 190-193). -/
def Bank.profile_exists (b : Bank) (id : List Char) : Bool :=
  (b.profiles (normalize_id id)).isSome

/-- `Bank::ensure_exists` (`src/bank.rs`, lines 124-134). -/
def Bank.ensure_exists (b : Bank) (id : List Char) : Bank :=
  let id := normalize_id id
  match b.profiles id with
  | some _ => b
  | none =>
    { b with profiles := fun k => if k = id then some b.default_bankroll else b.profiles k }

/-- `Bank::debit` (`src/bank.rs`, lines 145-161).  The result is the bank
after the call (the Rust method mutates `self` even on the insufficient
funds path, because `ensure_exists` runs first) together with the error, if
any.  The inner lookup after `ensure_exists` cannot miss; the `none` branch
mirrors the Rust `expect` and is unreachable. -/
def Bank.debit (b : Bank) (id0 : List Char) (amount : ℚ) : Bank × Option InsufficientFunds :=
  let id := normalize_id id0
  let b1 := b.ensure_exists id
  match b1.profiles id with
  | none => (b1, none)
  | some bankroll =>
    if bankroll < amount then
      (b1, some { player_id := id, required := amount, available := bankroll })
    else
      ({ b1 with
          profiles := fun k => if k = id then some (bankroll - amount) else b1.profiles k },
        none)

/-- `Bank::credit` (`src/bank.rs`, lines 163-169). -/
def Bank.credit (b : Bank) (id0 : List Char) (amount : ℚ) : Bank :=
  let id := normalize_id id0
  let b1 := b.ensure_exists id
  match b1.profiles id with
  | none => b1
  | some bankroll =>
    { b1 with
        profiles := fun k => if k = id then some (bankroll + amount) else b1.profiles k }

/-- `Bank::buyin` (`src/bank.rs`, lines 171-176): normalize, then debit
(logging omitted). -/
def Bank.buyin (b : Bank) (id : List Char) (amount : ℚ) : Bank × Option InsufficientFunds :=
  Bank.debit b (normalize_id id) amount

/-- `normalize_id` is idempotent. -/
theorem normalize_id_idem (id : List Char) : normalize_id (normalize_id id) = normalize_id id := by
  simp only [normalize_id, List.map_map]
  exact List.map_congr_left (fun c _ => char_toLower_idem c)

/-! ### Table room lifecycle (`src/net/server.rs`, `process_message`)

One table room plus the bank, with the message handlers of the server
dispatcher as a step function.  Connection usernames are modelled as a
fixed assignment `Nat → List Char` (the `Login` handler only records the
username; it never touches room status or the bank balances at issue
here).  The `ActiveGame` handle is reduced to its `game_finished` flag,
the only part the room lifecycle reads.  Randomized AI roster selection is
an oracle parameter of the `AddAI` message.  Socket writes are modelled as
the list of emitted messages. -/

inductive TableStatus
  | Waiting
  | InProgress
  | Finished
deriving DecidableEq, Repr

structure AIPlayerM where
  id : List Char
  name : List Char
  strategy : List Char
deriving DecidableEq, Repr

/-- The `TableConfig` fields the modelled handlers consume: `effective_buy_in()`
is precomputed into `buy_in`. -/
structure TableConfigM where
  id : List Char
  min_players : Nat
  max_players : Nat
  buy_in : ℚ
deriving DecidableEq, Repr

structure TableRoom where
  config : TableConfigM
  players : List (Nat × Nat)
  ai_players : List (Nat × AIPlayerM)
  ready : List (Nat × Bool)
  status : TableStatus
  active_game : Option Bool
deriving DecidableEq, Repr

/-- `TableRoom::player_count` (`src/net/server.rs`, lines 154-156). -/
def TableRoom.player_count (room : TableRoom) : Nat :=
  room.players.length + room.ai_players.length

/-- `TableRoom::find_empty_seat` (lines 158-166): lowest seat in
`0 .. max_players` occupied by neither a human nor an AI. -/
def TableRoom.find_empty_seat (room : TableRoom) : Option Nat :=
  (List.range room.config.max_players).find? (fun i =>
    (alist_lookup room.players i).isNone && (alist_lookup room.ai_players i).isNone)

/-- `TableRoom::add_player` (lines 168-171). -/
def TableRoom.add_player (room : TableRoom) (seat : Nat) (conn : Nat) : TableRoom :=
  { room with
      players := alist_insert room.players seat conn
      ready := alist_insert room.ready seat false }

/-- The seat occupied by a connection
(`table.players.iter().find(|(_, id)| id == conn_id)`). -/
def TableRoom.seat_of_conn (room : TableRoom) (conn : Nat) : Option Nat :=
  (room.players.find? (fun p => p.2 = conn)).map Prod.fst

/-- `TableRoom::remove_player` (lines 173-185), without the `ActiveGame`
bookkeeping (sitting-out set and action senders are not modelled). -/
def TableRoom.remove_player (room : TableRoom) (conn : Nat) : TableRoom × Option Nat :=
  match room.seat_of_conn conn with
  | none => (room, none)
  | some s =>
    ({ room with
        players := alist_remove room.players s
        ready := alist_remove room.ready s },
      some s)

/-- `TableRoom::add_ai` (lines 187-190): the AI seat is marked ready at
insertion. -/
def TableRoom.add_ai (room : TableRoom) (seat : Nat) (ai : AIPlayerM) : TableRoom :=
  { room with
      ai_players := alist_insert room.ai_players seat ai
      ready := alist_insert room.ready seat true }

/-- `TableRoom::remove_ai` (lines 192-199). -/
def TableRoom.remove_ai (room : TableRoom) (seat : Nat) : TableRoom × Bool :=
  if (alist_lookup room.ai_players seat).isSome then
    ({ room with
        ai_players := alist_remove room.ai_players seat
        ready := alist_remove room.ready seat },
      true)
  else (room, false)

/-- `TableRoom::set_ready` (lines 201-203). -/
def TableRoom.set_ready (room : TableRoom) (seat : Nat) : TableRoom :=
  { room with ready := alist_insert room.ready seat true }

/-- `TableRoom::all_ready` (lines 205-208). -/
def TableRoom.all_ready (room : TableRoom) : Bool :=
  decide (room.player_count ≥ room.config.min_players)
    && (room.ready.map Prod.snd).all (fun r => r)

/-- `TableRoom::has_username` (lines 253-270): case-insensitive collision
with seated humans' usernames and AI display names. -/
def TableRoom.has_username (room : TableRoom) (uname : Nat → List Char)
    (username : List Char) : Bool :=
  let lower := normalize_id username
  (room.players.map Prod.snd).any (fun cid => normalize_id (uname cid) = lower)
    || (room.ai_players.map Prod.snd).any (fun ai => normalize_id ai.name = lower)

structure ServerState where
  room : TableRoom
  bank : Bank
  uname : Nat → List Char

/-- Reasons carried by `ServerMessage::Error` replies of the modelled
handlers. -/
inductive ErrorPayload
  | insufficient (e : InsufficientFunds)
  | not_accepting
  | name_collision
  | table_full
  | not_in_waiting
  | no_available_ai
  | no_ai_at_seat
deriving DecidableEq, Repr

/-- The server-to-client messages the modelled handlers emit (payloads kept
only where a claim needs them). -/
inductive OutMsg
  | error_msg (payload : ErrorPayload)
  | player_ready_msg (seat : Nat)
  | game_starting
  | lobby_state
  | table_joined (seat : Nat)
  | player_joined_table (seat : Nat)
  | table_left
  | player_left_table (seat : Nat)
  | ai_added (seat : Nat)
  | ai_removed (seat : Nat)
deriving DecidableEq, Repr

def is_error_msg : OutMsg → Bool
  | OutMsg.error_msg _ => true
  | _ => false

/-- The buy-in loop of the `Ready` handler (`src/net/server.rs`, lines
734-738): debit each id in turn, stopping at the first failure.  The bank
returned on failure retains every mutation made so far (earlier successful
debits and the `ensure_exists` of the failing id); nothing is rolled
back. -/
def buyin_all (b : Bank) (ids : List (List Char)) (amount : ℚ) :
    Bank × Option InsufficientFunds :=
  match ids with
  | [] => (b, none)
  | id :: rest =>
    match b.buyin id amount with
    | (b', some e) => (b', some e)
    | (b', none) => buyin_all b' rest amount

/-- The id list assembled by the `Ready` handler (lines 721-732): humans in
seat-map iteration order (username lowercased), then AI ids. -/
def collect_player_ids (room : TableRoom) (uname : Nat → List Char) : List (List Char) :=
  room.players.map (fun p => normalize_id (uname p.2))
    ++ room.ai_players.map (fun p => p.2.id)

/-- The ready-flag reset of the buy-in failure path (lines 745-754): every
flag is set to false, then every AI seat is re-marked ready. -/
def reset_ready (room : TableRoom) : List (Nat × Bool) :=
  room.ai_players.foldl (fun r p => alist_insert r p.1 true)
    (room.ready.map (fun p => (p.1, false)))

/-- The `ClientMessage::Ready` handler (`src/net/server.rs`, lines 685-841).
On `all_ready`, buy-ins run under the bank lock; on any failure the status
is forced back to `Waiting`, human ready flags are cleared (AI re-marked
ready), one `Error` is broadcast and the lobby state re-sent.  On success
the status becomes `InProgress`, `GameStarting` and the lobby state are
broadcast and the engine is launched (the `ActiveGame` appears with its
finished flag unset). -/
def process_ready (st : ServerState) (conn : Nat) : ServerState × List OutMsg :=
  match st.room.seat_of_conn conn with
  | none => (st, [])
  | some s =>
    let room1 := st.room.set_ready s
    let msgs1 := [OutMsg.player_ready_msg s]
    if room1.all_ready then
      let ids := collect_player_ids room1 st.uname
      match buyin_all st.bank ids room1.config.buy_in with
      | (bank', some e) =>
        let room2 := { room1 with status := TableStatus.Waiting, ready := reset_ready room1 }
        ({ st with room := room2, bank := bank' },
          msgs1 ++ [OutMsg.error_msg (ErrorPayload.insufficient e), OutMsg.lobby_state])
      | (bank', none) =>
        let room2 := { room1 with status := TableStatus.InProgress, active_game := some false }
        ({ st with room := room2, bank := bank' },
          msgs1 ++ [OutMsg.game_starting, OutMsg.lobby_state])
    else ({ st with room := room1 }, msgs1)

/-- The lazy cleanup applied to a finished game (`JoinTable` lines 531-546,
`cleanup_finished_games` lines 1017-1034): reset to `Waiting`, clear seats
and readiness, drop the `ActiveGame`. -/
def cleanup_room_if_finished (room : TableRoom) : TableRoom × Bool :=
  match room.status, room.active_game with
  | TableStatus.InProgress, some true =>
    ({ room with
        status := TableStatus.Waiting
        players := []
        ai_players := []
        ready := []
        active_game := none },
      true)
  | _, _ => (room, false)

/-- The `ClientMessage::JoinTable` handler (lines 513-615), for this table
(the unknown-table and oversize-id error replies need no modelling beyond
leaving the state unchanged). -/
def process_join_table (st : ServerState) (conn : Nat) : ServerState × List OutMsg :=
  let username := st.uname conn
  let (room0, cleaned) := cleanup_room_if_finished st.room
  let msgs0 := if cleaned then [OutMsg.lobby_state] else []
  if room0.status ≠ TableStatus.Waiting then
    ({ st with room := room0 }, msgs0 ++ [OutMsg.error_msg ErrorPayload.not_accepting])
  else if room0.has_username st.uname username then
    ({ st with room := room0 }, msgs0 ++ [OutMsg.error_msg ErrorPayload.name_collision])
  else
    match room0.find_empty_seat with
    | some seat =>
      ({ st with room := room0.add_player seat conn },
        msgs0 ++ [OutMsg.table_joined seat, OutMsg.player_joined_table seat,
          OutMsg.lobby_state])
    | none => ({ st with room := room0 }, msgs0 ++ [OutMsg.error_msg ErrorPayload.table_full])

/-- The room mutation shared by `LeaveTable` (lines 617-683) and the
disconnect cleanup (lines 377-434): remove the seat; if no humans remain
during `Waiting`, clear the AI seats and ready flags (the quit signal sent
to a running engine is not represented in the room state). -/
def leave_room (room : TableRoom) (conn : Nat) : TableRoom × Option Nat :=
  match room.remove_player conn with
  | (room1, none) => (room1, none)
  | (room1, some s) =>
    if room1.players.isEmpty && decide (room1.status = TableStatus.Waiting) then
      ({ room1 with ai_players := [], ready := [] }, some s)
    else (room1, some s)

def process_leave_table (st : ServerState) (conn : Nat) : ServerState × List OutMsg :=
  match leave_room st.room conn with
  | (_, none) => (st, [])
  | (room1, some s) =>
    ({ st with room := room1 },
      [OutMsg.table_left, OutMsg.player_left_table s, OutMsg.lobby_state])

def process_disconnect (st : ServerState) (conn : Nat) : ServerState × List OutMsg :=
  match leave_room st.room conn with
  | (_, none) => (st, [])
  | (room1, some s) =>
    ({ st with room := room1 }, [OutMsg.player_left_table s, OutMsg.lobby_state])

/-- The `ClientMessage::AddAI` handler (lines 843-920).  The roster filter,
probability roll and shuffle are summarized by the oracle argument
`selected` (`None` models an exhausted roster); the chosen AI's bank
profile is created before seating it. -/
def process_add_ai (st : ServerState) (conn : Nat) (selected : Option AIPlayerM) :
    ServerState × List OutMsg :=
  match st.room.seat_of_conn conn with
  | none => (st, [])
  | some _ =>
    if st.room.status ≠ TableStatus.Waiting then
      (st, [OutMsg.error_msg ErrorPayload.not_in_waiting])
    else
      match st.room.find_empty_seat with
      | some seat =>
        match selected with
        | some ai =>
          ({ st with
              room := st.room.add_ai seat ai
              bank := st.bank.ensure_exists ai.id },
            [OutMsg.ai_added seat, OutMsg.lobby_state])
        | none => (st, [OutMsg.error_msg ErrorPayload.no_available_ai])
      | none => (st, [OutMsg.error_msg ErrorPayload.table_full])

/-- The `ClientMessage::RemoveAI` handler (lines 922-955). -/
def process_remove_ai (st : ServerState) (conn : Nat) (seat : Nat) :
    ServerState × List OutMsg :=
  match st.room.seat_of_conn conn with
  | none => (st, [])
  | some _ =>
    if st.room.status ≠ TableStatus.Waiting then
      (st, [OutMsg.error_msg ErrorPayload.not_in_waiting])
    else
      match st.room.remove_ai seat with
      | (room1, true) =>
        ({ st with room := room1 }, [OutMsg.ai_removed seat, OutMsg.lobby_state])
      | (_, false) => (st, [OutMsg.error_msg ErrorPayload.no_ai_at_seat])

/-- The `ClientMessage::ListTables` handler (lines 492-511): lazy cleanup
plus a lobby-state reply. -/
def process_list_tables (st : ServerState) : ServerState × List OutMsg :=
  let (room0, _) := cleanup_room_if_finished st.room
  ({ st with room := room0 }, [OutMsg.lobby_state])

/-- The store of the `game_finished` flag by the fan-out thread after
`GameEnded` (lines 1180-1216); the game-end bank settlement (cashout or
prizes) happens there too but is not needed by the room-lifecycle claims. -/
def process_game_finished (st : ServerState) : ServerState × List OutMsg :=
  match st.room.active_game with
  | some false => ({ st with room := { st.room with active_game := some true } }, [])
  | _ => (st, [])

/-- The client messages (plus disconnect and the fan-out finish signal)
that drive the modelled room lifecycle. -/
inductive SMsg
  | join_table (conn : Nat)
  | leave_table (conn : Nat)
  | ready (conn : Nat)
  | add_ai (conn : Nat) (selected : Option AIPlayerM)
  | remove_ai (conn : Nat) (seat : Nat)
  | list_tables
  | disconnect (conn : Nat)
  | game_finished

/-- One dispatcher step (`process_message`, lines 458-982, restricted to the
room-lifecycle messages; `Login`, `Action` and `Chat` leave the room, the
ready flags and the bank balances unchanged). -/
def server_step (st : ServerState) (m : SMsg) : ServerState × List OutMsg :=
  match m with
  | SMsg.join_table conn => process_join_table st conn
  | SMsg.leave_table conn => process_leave_table st conn
  | SMsg.ready conn => process_ready st conn
  | SMsg.add_ai conn selected => process_add_ai st conn selected
  | SMsg.remove_ai conn seat => process_remove_ai st conn seat
  | SMsg.list_tables => process_list_tables st
  | SMsg.disconnect conn => process_disconnect st conn
  | SMsg.game_finished => process_game_finished st

/-- The room of a freshly created table (`TableRoom::new`, lines 141-152). -/
def init_room (config : TableConfigM) : TableRoom :=
  { config := config
    players := []
    ai_players := []
    ready := []
    status := TableStatus.Waiting
    active_game := none }

def init_state (config : TableConfigM) (bank : Bank) (uname : Nat → List Char) : ServerState :=
  { room := init_room config, bank := bank, uname := uname }

/-- States reachable from a fresh table by dispatcher steps. -/
inductive Reachable : ServerState → Prop
  | init : ∀ config bank uname, Reachable (init_state config bank uname)
  | step : ∀ st m, Reachable st → Reachable (server_step st m).1

/-! ### Association-list and room lemmas -/

theorem alist_lookup_remove_self {α : Type} (l : List (Nat × α)) (k : Nat) :
    alist_lookup (alist_remove l k) k = none := by
  induction l with
  | nil => rfl
  | cons hd tl ih =>
    obtain ⟨k0, v0⟩ := hd
    by_cases h0 : k0 = k
    · simpa [alist_remove, h0] using ih
    · simpa [alist_remove, alist_lookup, h0] using ih

theorem alist_lookup_remove_ne {α : Type} (l : List (Nat × α)) (k k' : Nat) (h : k' ≠ k) :
    alist_lookup (alist_remove l k) k' = alist_lookup l k' := by
  induction l with
  | nil => rfl
  | cons hd tl ih =>
    obtain ⟨k0, v0⟩ := hd
    by_cases h0 : k0 = k
    · subst h0
      rw [alist_remove, if_pos rfl, alist_lookup, if_neg (fun hh => h hh.symm)]
      exact ih
    · rw [alist_remove, if_neg h0]
      by_cases h1 : k0 = k'
      · rw [alist_lookup, if_pos h1, alist_lookup, if_pos h1]
      · rw [alist_lookup, if_neg h1, alist_lookup, if_neg h1]
        exact ih

theorem alist_lookup_isSome_of_mem {α : Type} (l : List (Nat × α)) (k : Nat) (v : α)
    (h : (k, v) ∈ l) : (alist_lookup l k).isSome := by
  induction l with
  | nil => simp at h
  | cons hd tl ih =>
    obtain ⟨k0, v0⟩ := hd
    by_cases h0 : k0 = k
    · simp [alist_lookup, h0]
    · rcases List.mem_cons.mp h with h1 | h1
      · exact absurd (congrArg Prod.fst h1.symm) h0
      · simpa [alist_lookup, h0] using ih h1

/-- The seat returned by `find_empty_seat` is occupied by nobody. -/
theorem find_empty_seat_spec (room : TableRoom) (s : Nat)
    (h : room.find_empty_seat = some s) :
    alist_lookup room.players s = none ∧ alist_lookup room.ai_players s = none := by
  have hp := List.find?_some h
  simp only [Bool.and_eq_true, Option.isNone_iff_eq_none] at hp
  exact ⟨hp.1, hp.2⟩

/-- The seat found for a connection is present in the seat map. -/
theorem seat_of_conn_isSome (room : TableRoom) (conn : Nat) (s : Nat)
    (h : room.seat_of_conn conn = some s) : (alist_lookup room.players s).isSome := by
  unfold TableRoom.seat_of_conn at h
  cases hf : room.players.find? (fun p => p.2 = conn) with
  | none => rw [hf] at h; simp at h
  | some p =>
    rw [hf] at h
    obtain ⟨k, v⟩ := p
    have hmem := List.mem_of_find?_eq_some hf
    have hk : k = s := by simpa using h
    subst hk
    exact alist_lookup_isSome_of_mem _ _ v hmem

theorem lookup_map_false (l : List (Nat × Bool)) (k : Nat) :
    alist_lookup (l.map (fun p => (p.1, false))) k
      = (alist_lookup l k).map (fun _ => false) := by
  induction l with
  | nil => rfl
  | cons hd tl ih =>
    obtain ⟨k0, v0⟩ := hd
    by_cases h0 : k0 = k
    · simp [alist_lookup, h0]
    · simpa [alist_lookup, h0] using ih

theorem fold_insert_true_lookup (ais : List (Nat × AIPlayerM)) (r : List (Nat × Bool))
    (k : Nat) :
    alist_lookup (ais.foldl (fun acc p => alist_insert acc p.1 true) r) k
      = if (alist_lookup ais k).isSome then some true else alist_lookup r k := by
  induction ais generalizing r with
  | nil => simp [alist_lookup]
  | cons hd tl ih =>
    obtain ⟨k0, v0⟩ := hd
    by_cases h0 : k0 = k
    · subst h0
      simp only [List.foldl, ih, alist_lookup, if_pos rfl, Option.isSome_some, if_true]
      split
      · rfl
      · exact alist_lookup_insert_self r k0 true
    · simp only [List.foldl, ih, alist_lookup, if_neg h0]
      split
      · rfl
      · exact alist_lookup_insert_ne r k0 k true (fun hh => h0 hh.symm)

/-- The ready map after the buy-in failure reset: AI seats are `true`, every
other key previously tracked is `false`. -/
theorem reset_ready_lookup (room : TableRoom) (k : Nat) :
    alist_lookup (reset_ready room) k
      = if (alist_lookup room.ai_players k).isSome then some true
        else (alist_lookup room.ready k).map (fun _ => false) := by
  unfold reset_ready
  rw [fold_insert_true_lookup, lookup_map_false]

/-- The lifecycle invariant of a table room: every occupied seat has a ready
flag and no seat is simultaneously human and AI. -/
def RoomInv (room : TableRoom) : Prop :=
  (∀ k, (alist_lookup room.players k).isSome ∨ (alist_lookup room.ai_players k).isSome →
    (alist_lookup room.ready k).isSome)
  ∧ ∀ k, ¬((alist_lookup room.players k).isSome ∧ (alist_lookup room.ai_players k).isSome)

theorem room_inv_init (config : TableConfigM) : RoomInv (init_room config) := by
  constructor
  · intro k h
    rcases h with h | h <;> simp [init_room, alist_lookup] at h
  · intro k h
    rcases h with ⟨h1, _⟩
    simp [init_room, alist_lookup] at h1

theorem inv_set_ready (room : TableRoom) (s : Nat) (hinv : RoomInv room) :
    RoomInv (room.set_ready s) := by
  obtain ⟨h1, h2⟩ := hinv
  refine ⟨?_, h2⟩
  intro k hk
  simp only [TableRoom.set_ready] at hk ⊢
  by_cases hks : k = s
  · subst hks
    rw [alist_lookup_insert_self]
    rfl
  · rw [alist_lookup_insert_ne _ _ _ _ hks]
    exact h1 k hk

theorem inv_add_player (room : TableRoom) (s conn : Nat)
    (hp : alist_lookup room.players s = none) (ha : alist_lookup room.ai_players s = none)
    (hinv : RoomInv room) : RoomInv (room.add_player s conn) := by
  obtain ⟨h1, h2⟩ := hinv
  constructor
  · intro k hk
    simp only [TableRoom.add_player] at hk ⊢
    by_cases hks : k = s
    · subst hks
      rw [alist_lookup_insert_self]
      rfl
    · rw [alist_lookup_insert_ne _ _ _ _ hks]
      rw [alist_lookup_insert_ne _ _ _ _ hks] at hk
      exact h1 k hk
  · intro k hk
    simp only [TableRoom.add_player] at hk
    by_cases hks : k = s
    · subst hks
      rw [ha] at hk
      exact Option.not_isSome_iff_eq_none.mpr rfl hk.2
    · rw [alist_lookup_insert_ne _ _ _ _ hks] at hk
      exact h2 k hk

theorem inv_add_ai (room : TableRoom) (s : Nat) (ai : AIPlayerM)
    (hp : alist_lookup room.players s = none)
    (hinv : RoomInv room) : RoomInv (room.add_ai s ai) := by
  obtain ⟨h1, h2⟩ := hinv
  constructor
  · intro k hk
    simp only [TableRoom.add_ai] at hk ⊢
    by_cases hks : k = s
    · subst hks
      rw [alist_lookup_insert_self]
      rfl
    · rw [alist_lookup_insert_ne _ _ _ _ hks]
      rw [alist_lookup_insert_ne _ _ _ _ hks] at hk
      exact h1 k hk
  · intro k hk
    simp only [TableRoom.add_ai] at hk
    by_cases hks : k = s
    · subst hks
      rw [hp] at hk
      exact Option.not_isSome_iff_eq_none.mpr rfl hk.1
    · rw [alist_lookup_insert_ne _ _ _ _ hks] at hk
      exact h2 k hk

theorem inv_remove_player (room : TableRoom) (conn : Nat) (hinv : RoomInv room) :
    RoomInv (room.remove_player conn).1 := by
  obtain ⟨h1, h2⟩ := hinv
  unfold TableRoom.remove_player
  cases hs : room.seat_of_conn conn with
  | none => exact ⟨h1, h2⟩
  | some s =>
    have hps : (alist_lookup room.players s).isSome := seat_of_conn_isSome room conn s hs
    have has : ¬(alist_lookup room.ai_players s).isSome := fun hh => h2 s ⟨hps, hh⟩
    constructor
    · intro k hk
      simp only at hk ⊢
      by_cases hks : k = s
      · subst hks
        rw [alist_lookup_remove_self] at hk
        rcases hk with hk | hk
        · simp at hk
        · exact absurd hk has
      · rw [alist_lookup_remove_ne _ _ _ hks]
        rw [alist_lookup_remove_ne _ _ _ hks] at hk
        exact h1 k hk
    · intro k hk
      simp only at hk
      by_cases hks : k = s
      · subst hks
        rw [alist_lookup_remove_self] at hk
        simp at hk
      · rw [alist_lookup_remove_ne _ _ _ hks] at hk
        exact h2 k hk

theorem inv_remove_ai (room : TableRoom) (seat : Nat) (hinv : RoomInv room) :
    RoomInv (room.remove_ai seat).1 := by
  obtain ⟨h1, h2⟩ := hinv
  unfold TableRoom.remove_ai
  by_cases hcond : (alist_lookup room.ai_players seat).isSome
  · rw [if_pos hcond]
    have hps : ¬(alist_lookup room.players seat).isSome := fun hh => h2 seat ⟨hh, hcond⟩
    constructor
    · intro k hk
      simp only at hk ⊢
      by_cases hks : k = seat
      · subst hks
        rw [alist_lookup_remove_self] at hk
        rcases hk with hk | hk
        · exact absurd hk hps
        · simp at hk
      · rw [alist_lookup_remove_ne _ _ _ hks]
        rw [alist_lookup_remove_ne _ _ _ hks] at hk
        exact h1 k hk
    · intro k hk
      simp only at hk
      by_cases hks : k = seat
      · subst hks
        rw [alist_lookup_remove_self] at hk
        simp at hk
      · rw [alist_lookup_remove_ne _ _ _ hks] at hk
        exact h2 k hk
  · rw [if_neg hcond]
    exact ⟨h1, h2⟩

/-- A room whose three seat maps are empty satisfies the invariant. -/
theorem inv_of_empty (room : TableRoom) (hp : room.players = []) (ha : room.ai_players = []) :
    RoomInv room := by
  constructor
  · intro k hk
    rcases hk with hk | hk
    · rw [hp] at hk
      simp [alist_lookup] at hk
    · rw [ha] at hk
      simp [alist_lookup] at hk
  · intro k hk
    rw [hp] at hk
    simp [alist_lookup] at hk

theorem inv_cleanup (room : TableRoom) (hinv : RoomInv room) :
    RoomInv (cleanup_room_if_finished room).1 := by
  unfold cleanup_room_if_finished
  cases hst : room.status <;> cases hag : room.active_game <;> try exact hinv
  case InProgress.some b =>
    cases b
    · exact hinv
    · exact inv_of_empty _ rfl rfl

theorem inv_leave_room (room : TableRoom) (conn : Nat) (hinv : RoomInv room) :
    RoomInv (leave_room room conn).1 := by
  unfold leave_room
  cases hr : room.remove_player conn with
  | mk room1 res =>
    have hinv1 : RoomInv room1 := by
      have := inv_remove_player room conn hinv
      rw [hr] at this
      exact this
    cases res with
    | none => exact hinv1
    | some s =>
      simp only
      split
      next hc =>
        exact inv_of_empty _ (List.isEmpty_iff.mp ((Bool.and_eq_true _ _).mp hc).1) rfl
      next hc => exact hinv1

theorem inv_reset_ready (room : TableRoom) (hinv : RoomInv room) :
    RoomInv { room with status := TableStatus.Waiting, ready := reset_ready room } := by
  obtain ⟨h1, h2⟩ := hinv
  constructor
  · intro k hk
    simp only at hk ⊢
    rw [reset_ready_lookup]
    by_cases ha : (alist_lookup room.ai_players k).isSome
    · rw [if_pos ha]
      rfl
    · rw [if_neg ha]
      rcases hk with hk | hk
      · have := h1 k (Or.inl hk)
        cases hl : alist_lookup room.ready k
        · rw [hl] at this
          simp at this
        · simp [hl]
      · exact absurd hk ha
  · exact h2

/-- The room-lifecycle invariant is preserved by every dispatcher step. -/
theorem inv_step (st : ServerState) (m : SMsg) (hinv : RoomInv st.room) :
    RoomInv (server_step st m).1.room := by
  cases m with
  | join_table conn =>
    simp only [server_step, process_join_table]
    have hcl := inv_cleanup st.room hinv
    cases hcr : cleanup_room_if_finished st.room with
    | mk room0 cleaned =>
      rw [hcr] at hcl
      simp only
      split
      · exact hcl
      · split
        · exact hcl
        · cases hfe : room0.find_empty_seat with
          | none => exact hcl
          | some seat =>
            have ⟨hp, ha⟩ := find_empty_seat_spec room0 seat hfe
            exact inv_add_player room0 seat conn hp ha hcl
  | leave_table conn =>
    simp only [server_step, process_leave_table]
    have hlv := inv_leave_room st.room conn hinv
    cases hr : leave_room st.room conn with
    | mk room1 res =>
      rw [hr] at hlv
      cases res
      · exact hinv
      · exact hlv
  | disconnect conn =>
    simp only [server_step, process_disconnect]
    have hlv := inv_leave_room st.room conn hinv
    cases hr : leave_room st.room conn with
    | mk room1 res =>
      rw [hr] at hlv
      cases res
      · exact hinv
      · exact hlv
  | ready conn =>
    simp only [server_step, process_ready]
    cases hs : st.room.seat_of_conn conn with
    | none => exact hinv
    | some s =>
      have hinv1 : RoomInv (st.room.set_ready s) := inv_set_ready st.room s hinv
      simp only
      split
      · cases hb : buyin_all st.bank (collect_player_ids (st.room.set_ready s) st.uname)
          (st.room.set_ready s).config.buy_in with
        | mk bank' err =>
          cases err with
          | none =>
            refine ⟨?_, hinv1.2⟩
            intro k hk
            exact hinv1.1 k hk
          | some e =>
            have := inv_reset_ready (st.room.set_ready s) hinv1
            exact ⟨this.1, this.2⟩
      · exact hinv1
  | add_ai conn selected =>
    simp only [server_step, process_add_ai]
    cases hs : st.room.seat_of_conn conn with
    | none => exact hinv
    | some s0 =>
      simp only
      split
      · exact hinv
      · cases hfe : st.room.find_empty_seat with
        | none => exact hinv
        | some seat =>
          cases selected with
          | none => exact hinv
          | some ai =>
            have ⟨hp, _⟩ := find_empty_seat_spec st.room seat hfe
            exact inv_add_ai st.room seat ai hp hinv
  | remove_ai conn seat =>
    simp only [server_step, process_remove_ai]
    cases hs : st.room.seat_of_conn conn with
    | none => exact hinv
    | some s0 =>
      simp only
      split
      · exact hinv
      · have hrm := inv_remove_ai st.room seat hinv
        cases hr : st.room.remove_ai seat with
        | mk room1 ok =>
          rw [hr] at hrm
          cases ok
          · exact hinv
          · exact hrm
  | list_tables =>
    simp only [server_step, process_list_tables]
    have hcl := inv_cleanup st.room hinv
    cases hcr : cleanup_room_if_finished st.room with
    | mk room0 cleaned =>
      rw [hcr] at hcl
      exact hcl
  | game_finished =>
    simp only [server_step, process_game_finished]
    split
    · exact ⟨hinv.1, hinv.2⟩
    · exact hinv

/-- Every reachable state satisfies the room invariant. -/
theorem reachable_inv (st : ServerState) (h : Reachable st) : RoomInv st.room := by
  induction h with
  | init config bank uname => exact room_inv_init config
  | step st m _ ih => exact inv_step st m ih

/-! ### Claim theorems -/

/-- C5: for every event and viewer seat, the per-seat view projection
returns the event unchanged unless it is a `HoleCardsDealt` for a seat
other than the viewer, in which case the dealt seat is preserved and both
cards become the face-down placeholder (rank and suit question mark); the
viewer's own `HoleCardsDealt` passes through with the true cards and every
non-`HoleCardsDealt` event (including `ShowdownReveal`) passes through
unchanged. -/
theorem C5_view_projection (e : GameEvent) (v : Seat) :
    (∀ s c, e = GameEvent.HoleCardsDealt s c → s ≠ v →
        filter_event_for_seat e v =
          GameEvent.HoleCardsDealt s (Card.mk '?' '?', Card.mk '?' '?'))
    ∧ (∀ s c, e = GameEvent.HoleCardsDealt s c → s = v → filter_event_for_seat e v = e)
    ∧ (is_hole_cards_dealt e = false → filter_event_for_seat e v = e) := by
  refine ⟨?_, ?_, ?_⟩
  · intro s c he hne
    subst he
    simp [filter_event_for_seat, hne]
  · intro s c he hsv
    subst he
    simp [filter_event_for_seat, hsv]
  · intro hne
    cases e <;> simp_all [filter_event_for_seat, is_hole_cards_dealt]

/-- C5 witness: the projection at concrete events. -/
theorem C5_witness :
    filter_event_for_seat (GameEvent.HoleCardsDealt 0 (Card.mk 'A' 's', Card.mk 'K' 'h')) 1
      = GameEvent.HoleCardsDealt 0 (Card.mk '?' '?', Card.mk '?' '?')
    ∧ filter_event_for_seat (GameEvent.HoleCardsDealt 0 (Card.mk 'A' 's', Card.mk 'K' 'h')) 0
      = GameEvent.HoleCardsDealt 0 (Card.mk 'A' 's', Card.mk 'K' 'h')
    ∧ filter_event_for_seat (GameEvent.StreetChanged Street.Flop []) 1
      = GameEvent.StreetChanged Street.Flop [] :=
  ⟨(C5_view_projection _ 1).1 0 _ rfl (by decide),
   (C5_view_projection _ 0).2.1 0 _ rfl rfl,
   (C5_view_projection _ 1).2.2 rfl⟩

/-- C4 counterexample: with a mask whose `raise_options` is `None` (for
example after the raise cap is reached), `convert_action` still passes a
`Raise 999` response through to the engine as `AgentAction::Bet 999`
instead of rejecting or clamping it, so a bet is applied while raise
options are `None`, contrary to the claim. -/
theorem C4_counterexample :
    convert_action (PlayerAction.Raise 999)
        (ValidActions.mk true false (some 10) none false 50)
      = AgentAction.Bet 999
    ∧ (ValidActions.mk true false (some 10) none false 50).raise_options = none :=
  ⟨rfl, rfl⟩

/-- C4 (amended): `convert_action` performs no validation against the mask
and no clamping: a Bet or Raise response passes its amount straight through
as `AgentAction::Bet` regardless of the mask's raise window (even when
`raise_options` is `None`); Fold maps to Fold, Check and Call to the
engine's Call, AllIn to AllIn, and only a Timeout action is substituted
(the checking action when checking is legal, else Fold).  Any clamping of
raise amounts is left to the external `rs_poker` engine. -/
theorem C4_no_validation_or_clamping (v : ValidActions) (amt : ℚ) :
    convert_action (PlayerAction.Bet amt) v = AgentAction.Bet amt
    ∧ convert_action (PlayerAction.Raise amt) v = AgentAction.Bet amt
    ∧ convert_action PlayerAction.Fold v = AgentAction.Fold
    ∧ convert_action PlayerAction.Check v = AgentAction.Call
    ∧ convert_action (PlayerAction.Call amt) v = AgentAction.Call
    ∧ convert_action (PlayerAction.AllIn amt) v = AgentAction.AllIn
    ∧ convert_action PlayerAction.Timeout v
        = (if v.can_check then AgentAction.Call else AgentAction.Fold) :=
  ⟨rfl, rfl, rfl, rfl, rfl, rfl, rfl⟩

/-- C2: with `max_raises_per_round = 0` the adapter's cap test
`raises_this_round >= max_raises_per_round` is true at every decision point
(unsigned comparison against zero), so `build_valid_actions` suppresses the
raise options and reports `can_all_in = false` for every betting structure,
every history and every game state — including a positive stack with no
raises yet.  This contradicts the documented `0 = uncapped` convention,
which the sibling rule-based AI does implement (`src/ai/rules.rs`, line 64:
`raise_cap == 0 || num_raises < raise_cap`). -/
theorem C2_zero_cap_suppresses_everything (bs : BettingStructure)
    (history : List ActionRecord) (gs : GameStateView) :
    (build_valid_actions bs 0 history gs).raise_options = none
    ∧ (build_valid_actions bs 0 history gs).can_all_in = false := by
  constructor <;> simp [build_valid_actions]

/-- C7: whenever a decision cannot be satisfied — the port returns Timeout
(which `RemotePlayer::request_action` produces when its 120-second blocking
receive fails, whether by timeout or a dropped send end), the action value
is Timeout, or the adapter's own receive errs — the adapter substitutes the
checking action (`AgentAction::Call` is a check when there is nothing to
call) when checking is legal and Fold otherwise.  `can_check` holds exactly
when `to_call ≤ 0`, and when it fails `can_fold` holds, so the substituted
action is always legal and the hand proceeds. -/
theorem C7_timeout_substitution (valid : ValidActions) :
    resolve_recv none valid
        = (if valid.can_check then AgentAction.Call else AgentAction.Fold)
    ∧ convert_response PlayerResponse.Timeout valid
        = (if valid.can_check then AgentAction.Call else AgentAction.Fold)
    ∧ convert_response (PlayerResponse.Action PlayerAction.Timeout) valid
        = (if valid.can_check then AgentAction.Call else AgentAction.Fold)
    ∧ remote_request_action none = PlayerResponse.Timeout
    ∧ (∀ bs mr history gs,
        ((build_valid_actions bs mr history gs).can_check = true
          ↔ gs.current_bet - gs.my_bet ≤ 0))
    ∧ (∀ bs mr history gs,
        (build_valid_actions bs mr history gs).can_check = false →
          (build_valid_actions bs mr history gs).can_fold = true) := by
  refine ⟨rfl, rfl, rfl, rfl, ?_, ?_⟩
  · intro bs mr history gs
    simp [build_valid_actions]
  · intro bs mr history gs h
    simp only [build_valid_actions, decide_eq_false_iff_not, not_le] at h
    simp only [build_valid_actions, decide_eq_true_eq]
    exact h

/-- C7 witness: the substitution at a concrete mask where checking is legal
and a concrete decision point where it is not. -/
theorem C7_witness :
    resolve_recv none (ValidActions.mk false true none none true 0) = AgentAction.Call
    ∧ (build_valid_actions BettingStructure.NoLimit 4 []
        (GameStateView.mk 100 10 0 10 Round.Preflop 10 15)).can_fold = true := by
  constructor
  · exact (C7_timeout_substitution (ValidActions.mk false true none none true 0)).1
  · refine (C7_timeout_substitution (ValidActions.mk false true none none true 0)).2.2.2.2.2
      BettingStructure.NoLimit 4 [] (GameStateView.mk 100 10 0 10 Round.Preflop 10 15) ?_
    simp only [build_valid_actions, decide_eq_false_iff_not, not_le]
    norm_num

/-- Helper for C8: the historian's net award equals the award minus the
spec-described rake, for non-negative rake percentages. -/
theorem award_net_eq (cfg : RakeConfig) (saw_flop : Bool) (award : ℚ)
    (hp : 0 ≤ cfg.percent) :
    award_net cfg saw_flop award = award - rake_per_spec cfg saw_flop award := by
  unfold award_net rake_per_spec
  by_cases hz : cfg.percent = 0
  · rw [if_neg (by rw [hz]; exact fun hc => lt_irrefl 0 hc.1), if_pos hz, sub_zero]
  · have hpos : cfg.percent > 0 := lt_of_le_of_ne hp (fun hh => hz hh.symm)
    rw [if_neg hz]
    by_cases hn : cfg.no_flop_no_drop ∧ saw_flop = false
    · rw [if_pos hn, sub_zero, if_neg ?_]
      rintro ⟨-, hc⟩
      rcases hc with hc | hc
      · exact hc (by exact_mod_cast hn.1)
      · rw [hn.2] at hc
        exact Bool.false_ne_true hc
    · have hcond : cfg.percent > 0 ∧ (¬cfg.no_flop_no_drop = true ∨ saw_flop = true) := by
        refine ⟨hpos, ?_⟩
        by_cases hb : cfg.no_flop_no_drop
        · cases hs : saw_flop
          · exact absurd ⟨hb, hs⟩ hn
          · exact Or.inr rfl
        · exact Or.inl hb
      rw [if_neg hn, if_pos hcond]

/-- C8: for every awarded pot, the amount broadcast in `PotAwarded` is the
pot minus the rake, with rake equal to `min(pot * rake_percent, rake_cap
or infinity)` rounded to cents (half away from zero, as `f32::round`),
zero when `rake_percent` is zero, and zero when `no_flop_no_drop` is set
and the flop street was never emitted. -/
theorem C8_pot_awarded_net (cfg : RakeConfig) (saw_flop : Bool) (idx : Seat)
    (award : ℚ) (desc : Option (List Char)) (hp : 0 ≤ cfg.percent) :
    record_award_event cfg saw_flop idx award desc
      = GameEvent.PotAwarded idx (award - rake_per_spec cfg saw_flop award) desc
          PotType.Main := by
  unfold record_award_event
  rw [award_net_eq cfg saw_flop award hp]

/-- C8 witness: a five-percent uncapped rake on a 100-unit pot rakes
exactly 5, and the no-flop-no-drop preflop case rakes nothing. -/
theorem C8_witness :
    record_award_event (RakeConfig.mk (5 / 100) none false) true 0 100 none
      = GameEvent.PotAwarded 0
          (100 - rake_per_spec (RakeConfig.mk (5 / 100) none false) true 100) none
          PotType.Main
    ∧ rake_per_spec (RakeConfig.mk (5 / 100) none false) true 100 = 5
    ∧ rake_per_spec (RakeConfig.mk (5 / 100) none true) false 100 = 0 := by
  refine ⟨C8_pot_awarded_net (RakeConfig.mk (5 / 100) none false) true 0 100 none
    (by norm_num), ?_, ?_⟩
  · have h5 : ((100 : ℚ) * (5 / 100)) = 5 := by norm_num
    simp only [rake_per_spec, round_cents, rust_round]
    norm_num [Int.floor_eq_iff]
  · simp [rake_per_spec]

/-- C10: a debit (and hence a buy-in) of an id with no bank profile first
creates the profile with the default bankroll (`ensure_exists` runs before
the funds check), so even a call failing with `InsufficientFunds` changes
the bank: afterwards the profile for the lowercased id exists with the
default bankroll; on success the bankroll is the default minus the
amount.  The call fails exactly when the default bankroll is below the
amount. -/
theorem C10_debit_creates_profile (b : Bank) (id : List Char) (amount : ℚ)
    (h : b.profiles (normalize_id id) = none) :
    ((b.debit id amount).1.profile_exists id = true)
    ∧ ((b.debit id amount).2.isSome ↔ b.default_bankroll < amount)
    ∧ ((b.debit id amount).2.isSome →
        (b.debit id amount).1.get_bankroll id = b.default_bankroll)
    ∧ ((b.debit id amount).2 = none →
        (b.debit id amount).1.get_bankroll id = b.default_bankroll - amount)
    ∧ ((b.buyin id amount).1.profile_exists id = true)
    ∧ ((b.buyin id amount).2.isSome ↔ b.default_bankroll < amount) := by
  have h2 : b.profiles (normalize_id (normalize_id id)) = none := by
    rw [normalize_id_idem]
    exact h
  simp only [Bank.debit, Bank.buyin, Bank.ensure_exists, Bank.profile_exists,
    Bank.get_bankroll, normalize_id_idem, h, h2]
  by_cases hlt : b.default_bankroll < amount
  · simp [hlt]
  · simp [hlt]

/-- C10 witness: debiting a fresh id from an empty bank. -/
theorem C10_witness :
    (((Bank.mk (fun _ => none) 1000).debit (['A', 'l', 'i', 'c', 'e']) 200).1.profile_exists
        (['A', 'l', 'i', 'c', 'e']) = true)
    ∧ ((((Bank.mk (fun _ => none) 1000).debit (['A', 'l', 'i', 'c', 'e']) 200).2.isSome)
        ↔ (1000 : ℚ) < 200)
    ∧ ((((Bank.mk (fun _ => none) 1000).debit (['A', 'l', 'i', 'c', 'e']) 200).2.isSome) →
        ((Bank.mk (fun _ => none) 1000).debit (['A', 'l', 'i', 'c', 'e']) 200).1.get_bankroll
          (['A', 'l', 'i', 'c', 'e']) = 1000)
    ∧ ((((Bank.mk (fun _ => none) 1000).debit (['A', 'l', 'i', 'c', 'e']) 200).2 = none) →
        ((Bank.mk (fun _ => none) 1000).debit (['A', 'l', 'i', 'c', 'e']) 200).1.get_bankroll
          (['A', 'l', 'i', 'c', 'e']) = 1000 - 200)
    ∧ (((Bank.mk (fun _ => none) 1000).buyin (['A', 'l', 'i', 'c', 'e']) 200).1.profile_exists
        (['A', 'l', 'i', 'c', 'e']) = true)
    ∧ ((((Bank.mk (fun _ => none) 1000).buyin (['A', 'l', 'i', 'c', 'e']) 200).2.isSome)
        ↔ (1000 : ℚ) < 200) :=
  C10_debit_creates_profile (Bank.mk (fun _ => none) 1000) (['A', 'l', 'i', 'c', 'e']) 200 rfl

/-- Helper: a decoded length implies at least four buffered bytes. -/
theorem decode_length_some_length (buf : List Nat) (len : Nat)
    (h : decode_length buf = some len) : 4 ≤ buf.length := by
  match buf with
  | b0 :: b1 :: b2 :: b3 :: rest => simp
  | [] => simp [decode_length] at h
  | [b0] => simp [decode_length] at h
  | [b0, b1] => simp [decode_length] at h
  | [b0, b1, b2] => simp [decode_length] at h

/-- C6 counterexample: a 4-byte buffer declaring a frame length of 65537
(which exceeds `MAX_MESSAGE_SIZE`).  The server-side decoder discards the
buffer, but the client-side decoder — which the claim also covers — has no
size check: it returns `None` and leaves the buffer intact instead of
discarding it. -/
theorem C6_counterexample :
    decode_length [0, 1, 0, 1] = some 65537
    ∧ 65537 > MAX_MESSAGE_SIZE
    ∧ try_decode_message (fun b => some b) [0, 1, 0, 1] = (none, [])
    ∧ try_decode_message_client (fun b => some b) [0, 1, 0, 1] = (none, [0, 1, 0, 1])
    ∧ ¬(try_decode_message_client (fun b => some b) [0, 1, 0, 1]
        = ((none : Option (List Nat)), ([] : List Nat))) := by
  refine ⟨by decide, by decide, by decide, by decide, by decide⟩

/-- C6 (amended): both decoders return `None` and leave the buffer intact
when it holds fewer than 4 bytes or fewer bytes than the declared frame
length; a declared length exceeding `MAX_MESSAGE_SIZE` causes the
server-side decoder (only) to discard the entire buffer, while the
client-side decoder has no size check and treats any incomplete frame —
oversize or not — as pending, leaving the buffer intact. -/
theorem C6_decoder_failure_contract {α : Type} (parse : List Nat → Option α)
    (buf : List Nat) :
    (buf.length < 4 →
      try_decode_message parse buf = (none, buf)
      ∧ try_decode_message_client parse buf = (none, buf))
    ∧ (∀ len, decode_length buf = some len → len > MAX_MESSAGE_SIZE →
        try_decode_message parse buf = (none, []))
    ∧ (∀ len, decode_length buf = some len → len ≤ MAX_MESSAGE_SIZE →
        buf.length < 4 + len → try_decode_message parse buf = (none, buf))
    ∧ (∀ len, decode_length buf = some len → buf.length < 4 + len →
        try_decode_message_client parse buf = (none, buf)) := by
  refine ⟨?_, ?_, ?_, ?_⟩
  · intro h
    constructor
    · unfold try_decode_message
      rw [if_pos h]
    · unfold try_decode_message_client
      rw [if_pos h]
  · intro len hd hmax
    have h4 := decode_length_some_length buf len hd
    unfold try_decode_message
    rw [if_neg (by omega), hd]
    simp only
    rw [if_pos hmax]
  · intro len hd hmax hshort
    have h4 := decode_length_some_length buf len hd
    unfold try_decode_message
    rw [if_neg (by omega), hd]
    simp only
    rw [if_neg (by omega), if_pos hshort]
  · intro len hd hshort
    have h4 := decode_length_some_length buf len hd
    unfold try_decode_message_client
    rw [if_neg (by omega), hd]
    simp only
    rw [if_pos hshort]

/-- C6 witness: the contract at concrete buffers — a short buffer in both
decoders, an oversize declaration in the server decoder, and an incomplete
frame in both. -/
theorem C6_witness :
    (try_decode_message (fun b => some b) [0, 0] = (none, [0, 0])
      ∧ try_decode_message_client (fun b => some b) [0, 0] = (none, [0, 0]))
    ∧ try_decode_message (fun b => some b) [0, 1, 0, 1] = (none, [])
    ∧ try_decode_message (fun b => some b) [0, 0, 0, 9, 7] = (none, [0, 0, 0, 9, 7])
    ∧ try_decode_message_client (fun b => some b) [0, 0, 0, 9, 7]
        = (none, [0, 0, 0, 9, 7]) := by
  refine ⟨(C6_decoder_failure_contract (fun b => some b) [0, 0]).1 (by decide),
    (C6_decoder_failure_contract (fun b => some b) [0, 1, 0, 1]).2.1 65537
      (by decide) (by decide),
    (C6_decoder_failure_contract (fun b => some b) [0, 0, 0, 9, 7]).2.2.1 9
      (by decide) (by decide) (by decide),
    (C6_decoder_failure_contract (fun b => some b) [0, 0, 0, 9, 7]).2.2.2 9
      (by decide) (by decide)⟩

/-- Helper for C3: framing round-trip at the byte level.  A frame
holding a body of at most `MAX_MESSAGE_SIZE` bytes is accepted by both
decoders and consumed exactly, handing the body to the serde parse. -/
theorem try_decode_encode {α : Type} (parse : List Nat → Option α) (body rest : List Nat)
    (hlen : body.length ≤ MAX_MESSAGE_SIZE) :
    try_decode_message parse (encode_message body ++ rest) = (parse body, rest)
    ∧ try_decode_message_client parse (encode_message body ++ rest) = (parse body, rest) := by
  have hlt : body.length < 2 ^ 32 := by
    have : MAX_MESSAGE_SIZE < 2 ^ 32 := by norm_num [MAX_MESSAGE_SIZE]
    omega
  have hmod : body.length % 2 ^ 32 = body.length := Nat.mod_eq_of_lt hlt
  have hassoc : encode_message body ++ rest = u32_be body.length ++ (body ++ rest) := by
    rw [encode_message, hmod, List.append_assoc]
  have hlength : (u32_be body.length ++ (body ++ rest)).length
      = 4 + (body.length + rest.length) := by
    simp only [u32_be, List.length_append, List.length_cons, List.length_nil]
    try omega
  have hdec : decode_length (u32_be body.length ++ (body ++ rest)) = some body.length :=
    decode_length_u32_be body.length (body ++ rest) hlt
  have hdrop4 : (u32_be body.length ++ (body ++ rest)).drop 4 = body ++ rest := by
    have h4 : (u32_be body.length).length = 4 := by simp [u32_be]
    rw [← h4, List.drop_left]
  have htake : (body ++ rest).take body.length = body := by simp
  have hdroplen : (u32_be body.length ++ (body ++ rest)).drop (4 + body.length) = rest := by
    have hpre : ((u32_be body.length ++ body)).length = 4 + body.length := by
      simp only [u32_be, List.length_append, List.length_cons, List.length_nil]
      try omega
    rw [← List.append_assoc, ← hpre, List.drop_left]
  constructor
  · unfold try_decode_message
    rw [hassoc, hdec]
    simp only
    rw [if_neg (by omega), if_neg (by omega), if_neg (by omega), hdrop4, htake, hdroplen]
  · unfold try_decode_message_client
    rw [hassoc, hdec]
    simp only
    rw [if_neg (by omega), if_neg (by omega), hdrop4, htake, hdroplen]

/-- C3 (amended): for every message whose serde parse inverts its serde
print (the serde derive contract, which holds for the protocol types with
finite float fields) and whose JSON body does not exceed
`MAX_MESSAGE_SIZE`, decoding the encoded bytes succeeds with an equal
message and consumes exactly that frame, in both directions (server-side
decoder and client-side decoder); the body-size bound is necessary because
the server decoder discards oversize frames. -/
theorem C3_roundtrip_bounded {α : Type} (parse : List Nat → Option α) (print : α → List Nat)
    (m : α) (rest : List Nat) (hparse : parse (print m) = some m)
    (hlen : (print m).length ≤ MAX_MESSAGE_SIZE) :
    try_decode_message parse (encode_message (print m) ++ rest) = (some m, rest)
    ∧ try_decode_message_client parse (encode_message (print m) ++ rest)
        = (some m, rest) := by
  have h := try_decode_encode parse (print m) rest hlen
  rw [hparse] at h
  exact h

/-- C3 witness: a concrete two-byte body round-trips through both decoders
with a trailing byte left in the buffer. -/
theorem C3_witness :
    try_decode_message some (encode_message [104, 105] ++ [9]) = (some [104, 105], [9])
    ∧ try_decode_message_client some (encode_message [104, 105] ++ [9])
        = (some [104, 105], [9]) :=
  C3_roundtrip_bounded some id [104, 105] [9] rfl (by decide)

/-- Bytes of the ASCII JSON skeleton serde emits before the username value
of a `login` message: an open brace, then `"type":"login","username":"`. -/
def login_body_head : List Nat :=
  [123, 34, 116, 121, 112, 101, 34, 58, 34, 108, 111, 103, 105, 110, 34, 44,
   34, 117, 115, 101, 114, 110, 97, 109, 101, 34, 58, 34]

/-- Bytes of the closing quote and brace of the login JSON body. -/
def login_body_tail : List Nat := [34, 125]

/-- The exact byte body serde produces for a `ClientMessage::Login` whose
username consists only of plain ASCII characters needing no JSON escaping
(serde_json emits the compact internally-tagged object, `type` field
first). -/
def login_body_ascii (username : List Nat) : List Nat :=
  login_body_head ++ username ++ login_body_tail

/-- C3 counterexample: the `Login` message with a username of 70000 `a`
characters.  Its serde body is 70030 bytes, `encode_message` happily frames
it, and the server-side decoder then discards the whole frame (returning
`None` with an emptied buffer, whatever the parse function), so this
encoded message does not round-trip — refuting the claim's universal
quantification over all client messages. -/
theorem C3_counterexample :
    (login_body_ascii (List.replicate 70000 97)).length = 70030
    ∧ 70030 > MAX_MESSAGE_SIZE
    ∧ try_decode_message (fun b => some b)
        (encode_message (login_body_ascii (List.replicate 70000 97))) = (none, []) := by
  have hlen : (login_body_ascii (List.replicate 70000 97)).length = 70030 := by
    rw [login_body_ascii, List.length_append, List.length_append, List.length_replicate]
    norm_num [login_body_head, login_body_tail]
  refine ⟨hlen, by norm_num [MAX_MESSAGE_SIZE], ?_⟩
  have hlt : (login_body_ascii (List.replicate 70000 97)).length < 2 ^ 32 := by
    rw [hlen]; norm_num
  have hmod : (login_body_ascii (List.replicate 70000 97)).length % 2 ^ 32
      = (login_body_ascii (List.replicate 70000 97)).length := Nat.mod_eq_of_lt hlt
  unfold try_decode_message encode_message
  rw [hmod]
  have h4 : (u32_be (login_body_ascii (List.replicate 70000 97)).length).length = 4 := rfl
  have hlength : (u32_be (login_body_ascii (List.replicate 70000 97)).length
      ++ login_body_ascii (List.replicate 70000 97)).length
      = 4 + (login_body_ascii (List.replicate 70000 97)).length := by
    rw [List.length_append, h4]
  rw [decode_length_u32_be _ _ hlt]
  simp only
  rw [if_neg (by omega), if_pos (by rw [hlen]; norm_num [MAX_MESSAGE_SIZE])]

/-! ### Status lemmas for the room lifecycle -/

theorem cleanup_of_waiting (room : TableRoom) (h : room.status = TableStatus.Waiting) :
    cleanup_room_if_finished room = (room, false) := by
  unfold cleanup_room_if_finished
  rw [h]

theorem join_preserves_waiting (st : ServerState) (conn : Nat)
    (hw : st.room.status = TableStatus.Waiting) :
    (process_join_table st conn).1.room.status = TableStatus.Waiting := by
  unfold process_join_table
  rw [cleanup_of_waiting st.room hw]
  simp only
  split
  · exact hw
  · split
    · exact hw
    · cases st.room.find_empty_seat
      · exact hw
      · exact hw

theorem leave_room_status (room : TableRoom) (conn : Nat) :
    (leave_room room conn).1.status = room.status := by
  unfold leave_room TableRoom.remove_player
  cases room.seat_of_conn conn
  · rfl
  · simp only
    split <;> rfl

theorem leave_preserves_status (st : ServerState) (conn : Nat) :
    (process_leave_table st conn).1.room.status = st.room.status := by
  unfold process_leave_table
  have h := leave_room_status st.room conn
  cases hr : leave_room st.room conn with
  | mk room1 res =>
    rw [hr] at h
    cases res
    · rfl
    · exact h

theorem disconnect_preserves_status (st : ServerState) (conn : Nat) :
    (process_disconnect st conn).1.room.status = st.room.status := by
  unfold process_disconnect
  have h := leave_room_status st.room conn
  cases hr : leave_room st.room conn with
  | mk room1 res =>
    rw [hr] at h
    cases res
    · rfl
    · exact h

theorem add_ai_preserves_status (st : ServerState) (conn : Nat) (sel : Option AIPlayerM) :
    (process_add_ai st conn sel).1.room.status = st.room.status := by
  unfold process_add_ai
  cases st.room.seat_of_conn conn
  · rfl
  · simp only
    split
    · rfl
    · cases st.room.find_empty_seat
      · rfl
      · cases sel <;> rfl

theorem remove_ai_preserves_status (st : ServerState) (conn : Nat) (seat : Nat) :
    (process_remove_ai st conn seat).1.room.status = st.room.status := by
  unfold process_remove_ai
  cases st.room.seat_of_conn conn
  · rfl
  · simp only
    split
    · rfl
    · by_cases hai : (alist_lookup st.room.ai_players seat).isSome
      · rw [show st.room.remove_ai seat
            = ({ st.room with
                  ai_players := alist_remove st.room.ai_players seat
                  ready := alist_remove st.room.ready seat }, true)
            from by unfold TableRoom.remove_ai; rw [if_pos hai]]
      · rw [show st.room.remove_ai seat = (st.room, false)
            from by unfold TableRoom.remove_ai; rw [if_neg hai]]

theorem list_preserves_waiting (st : ServerState)
    (hw : st.room.status = TableStatus.Waiting) :
    (process_list_tables st).1.room.status = TableStatus.Waiting := by
  unfold process_list_tables
  rw [cleanup_of_waiting st.room hw]
  exact hw

theorem game_finished_preserves_status (st : ServerState) :
    (process_game_finished st).1.room.status = st.room.status := by
  unfold process_game_finished
  split <;> rfl

/-- Exhaustive characterization of the `Ready` handler: it is a no-op for an
unseated connection; otherwise it marks the seat ready and, when all seats
are ready, either fails the buy-ins (reverting to `Waiting` with reset
flags and one error broadcast, keeping the partially debited bank) or
starts the game (`InProgress`). -/
theorem process_ready_cases (st : ServerState) (conn : Nat) :
    (st.room.seat_of_conn conn = none ∧ process_ready st conn = (st, []))
    ∨ (∃ s, st.room.seat_of_conn conn = some s
        ∧ (st.room.set_ready s).all_ready = false
        ∧ process_ready st conn
            = ({ st with room := st.room.set_ready s }, [OutMsg.player_ready_msg s]))
    ∨ (∃ s e, st.room.seat_of_conn conn = some s
        ∧ (st.room.set_ready s).all_ready = true
        ∧ (buyin_all st.bank (collect_player_ids (st.room.set_ready s) st.uname)
            (st.room.set_ready s).config.buy_in).2 = some e
        ∧ process_ready st conn
            = ({ st with
                  room := { st.room.set_ready s with
                    status := TableStatus.Waiting
                    ready := reset_ready (st.room.set_ready s) }
                  bank := (buyin_all st.bank
                    (collect_player_ids (st.room.set_ready s) st.uname)
                    (st.room.set_ready s).config.buy_in).1 },
              [OutMsg.player_ready_msg s, OutMsg.error_msg (ErrorPayload.insufficient e),
                OutMsg.lobby_state]))
    ∨ (∃ s, st.room.seat_of_conn conn = some s
        ∧ (st.room.set_ready s).all_ready = true
        ∧ (buyin_all st.bank (collect_player_ids (st.room.set_ready s) st.uname)
            (st.room.set_ready s).config.buy_in).2 = none
        ∧ process_ready st conn
            = ({ st with
                  room := { st.room.set_ready s with
                    status := TableStatus.InProgress
                    active_game := some false }
                  bank := (buyin_all st.bank
                    (collect_player_ids (st.room.set_ready s) st.uname)
                    (st.room.set_ready s).config.buy_in).1 },
              [OutMsg.player_ready_msg s, OutMsg.game_starting, OutMsg.lobby_state])) := by
  unfold process_ready
  cases hs : st.room.seat_of_conn conn with
  | none => exact Or.inl ⟨rfl, rfl⟩
  | some s =>
    dsimp only
    by_cases hall : (st.room.set_ready s).all_ready
    · rw [if_pos hall]
      cases hb : buyin_all st.bank (collect_player_ids (st.room.set_ready s) st.uname)
          (st.room.set_ready s).config.buy_in with
      | mk bank' err =>
        cases err with
        | some e =>
          refine Or.inr (Or.inr (Or.inl ⟨s, e, rfl, hall, by rw [hb], ?_⟩))
          rw [hb]
          rfl
        | none =>
          refine Or.inr (Or.inr (Or.inr ⟨s, rfl, hall, by rw [hb], ?_⟩))
          rw [hb]
          rfl
    · rw [if_neg hall]
      exact Or.inr (Or.inl ⟨s, rfl, Bool.eq_false_iff.mpr hall, rfl⟩)

/-- C9: in every reachable server state, a table room in `Waiting` is moved
to `InProgress` only by the `Ready` handler, and only when the number of
seated players (humans plus AIs) is at least `min_players` and every
occupied seat's ready flag is true; and `add_ai` marks the seat ready at
the moment the AI is installed. -/
theorem C9_waiting_to_inprogress (st : ServerState) (m : SMsg)
    (hr : Reachable st)
    (hw : st.room.status = TableStatus.Waiting)
    (hp : (server_step st m).1.room.status = TableStatus.InProgress) :
    (∃ conn, m = SMsg.ready conn)
    ∧ (server_step st m).1.room.player_count
        ≥ (server_step st m).1.room.config.min_players
    ∧ (∀ k, (alist_lookup (server_step st m).1.room.players k).isSome
          ∨ (alist_lookup (server_step st m).1.room.ai_players k).isSome →
        alist_lookup (server_step st m).1.room.ready k = some true)
    ∧ (∀ room seat ai, alist_lookup (TableRoom.add_ai room seat ai).ready seat
        = some true) := by
  cases m with
  | join_table conn =>
    rw [show server_step st (SMsg.join_table conn) = process_join_table st conn from rfl,
      join_preserves_waiting st conn hw] at hp
    exact absurd hp (by simp)
  | leave_table conn =>
    rw [show server_step st (SMsg.leave_table conn) = process_leave_table st conn from rfl,
      leave_preserves_status st conn, hw] at hp
    exact absurd hp (by simp)
  | disconnect conn =>
    rw [show server_step st (SMsg.disconnect conn) = process_disconnect st conn from rfl,
      disconnect_preserves_status st conn, hw] at hp
    exact absurd hp (by simp)
  | add_ai conn sel =>
    rw [show server_step st (SMsg.add_ai conn sel) = process_add_ai st conn sel from rfl,
      add_ai_preserves_status st conn sel, hw] at hp
    exact absurd hp (by simp)
  | remove_ai conn seat =>
    rw [show server_step st (SMsg.remove_ai conn seat) = process_remove_ai st conn seat
        from rfl,
      remove_ai_preserves_status st conn seat, hw] at hp
    exact absurd hp (by simp)
  | list_tables =>
    rw [show server_step st SMsg.list_tables = process_list_tables st from rfl,
      list_preserves_waiting st hw] at hp
    exact absurd hp (by simp)
  | game_finished =>
    rw [show server_step st SMsg.game_finished = process_game_finished st from rfl,
      game_finished_preserves_status st, hw] at hp
    exact absurd hp (by simp)
  | ready conn =>
    have hstep : server_step st (SMsg.ready conn) = process_ready st conn := rfl
    rw [hstep] at hp ⊢
    rcases process_ready_cases st conn with ⟨_, heq⟩ | ⟨s, _, _, heq⟩ |
      ⟨s, e, _, _, _, heq⟩ | ⟨s, hseat, hall, hok, heq⟩
    · rw [heq] at hp
      exact absurd (hw ▸ hp) (by simp)
    · rw [heq] at hp
      simp only [TableRoom.set_ready] at hp
      exact absurd (hw ▸ hp) (by simp)
    · rw [heq] at hp
      exact absurd hp (by simp)
    · rw [heq]
      have hinv1 : RoomInv (st.room.set_ready s) :=
        inv_set_ready st.room s (reachable_inv st hr)
      refine ⟨⟨conn, rfl⟩, ?_, ?_, fun room seat ai => alist_lookup_insert_self _ _ _⟩
      · have := (Bool.and_eq_true _ _).mp hall
        exact of_decide_eq_true this.1
      · intro k hk
        have hsome := hinv1.1 k hk
        cases hl : alist_lookup (st.room.set_ready s).ready k with
        | none => rw [hl] at hsome; simp at hsome
        | some v =>
          have hmem := alist_lookup_mem_values _ _ _ hl
          have hallv := (Bool.and_eq_true _ _).mp hall |>.2
          rw [List.all_eq_true] at hallv
          have hv := hallv v hmem
          simp at hv
          rw [hv]

def c9_config : TableConfigM :=
  { id := ['t'], min_players := 2, max_players := 6, buy_in := 50 }

def c9_bank : Bank := Bank.mk (fun _ => none) 1000

def c9_uname : Nat → List Char := fun c => if c = 1 then ['a'] else ['b']

/-- A concrete reachable pre-start state: two humans joined, the first
already ready. -/
def c9_pre : ServerState :=
  (server_step
    ((server_step
      ((server_step (init_state c9_config c9_bank c9_uname) (SMsg.join_table 1)).1)
      (SMsg.join_table 2)).1)
    (SMsg.ready 1)).1

/-- C9 witness: in the concrete reachable state `c9_pre`, the second
player's `Ready` flips the room from `Waiting` to `InProgress`, and the
theorem's guard conclusions hold there. -/
theorem C9_witness :
    (∃ conn, SMsg.ready 2 = SMsg.ready conn)
    ∧ (server_step c9_pre (SMsg.ready 2)).1.room.player_count
        ≥ (server_step c9_pre (SMsg.ready 2)).1.room.config.min_players
    ∧ (∀ k, (alist_lookup (server_step c9_pre (SMsg.ready 2)).1.room.players k).isSome
          ∨ (alist_lookup (server_step c9_pre (SMsg.ready 2)).1.room.ai_players k).isSome →
        alist_lookup (server_step c9_pre (SMsg.ready 2)).1.room.ready k = some true)
    ∧ (∀ room seat ai, alist_lookup (TableRoom.add_ai room seat ai).ready seat
        = some true) := by
  have h0 : Reachable (init_state c9_config c9_bank c9_uname) := Reachable.init _ _ _
  have h1 := Reachable.step _ (SMsg.join_table 1) h0
  have h2 := Reachable.step _ (SMsg.join_table 2) h1
  have h3 := Reachable.step _ (SMsg.ready 1) h2
  exact C9_waiting_to_inprogress c9_pre (SMsg.ready 2) h3 rfl rfl

/-! ### C1: the buy-in failure path of the `Ready` handler -/

/-- After `ensure_exists`, the profile at the normalized id is present. -/
theorem ensure_exists_lookup (b : Bank) (id : List Char) :
    (b.ensure_exists id).profiles (normalize_id id)
      = some (match b.profiles (normalize_id id) with
              | some p => p
              | none => b.default_bankroll) := by
  simp only [Bank.ensure_exists]
  cases h : b.profiles (normalize_id id) with
  | some p =>
    dsimp only
    exact h
  | none =>
    dsimp only
    simp

/-- `ensure_exists` changes no key other than the normalized id. -/
theorem ensure_exists_lookup_ne (b : Bank) (id : List Char) (k : List Char)
    (h : k ≠ normalize_id id) : (b.ensure_exists id).profiles k = b.profiles k := by
  simp only [Bank.ensure_exists]
  cases hh : b.profiles (normalize_id id) with
  | some p => rfl
  | none =>
    dsimp only
    simp [h]

/-- A successful debit lowers the id's balance by exactly the amount (also
when the profile was created on the fly from the default bankroll). -/
theorem debit_success_balance (b : Bank) (id : List Char) (amount : ℚ)
    (h : (b.debit id amount).2 = none) :
    (b.debit id amount).1.get_bankroll id = b.get_bankroll id - amount := by
  simp only [Bank.debit] at h ⊢
  have hl := ensure_exists_lookup b (normalize_id id)
  rw [normalize_id_idem] at hl
  rw [hl] at h ⊢
  dsimp only at h ⊢
  by_cases hlt : (match b.profiles (normalize_id id) with
      | some p => p
      | none => b.default_bankroll) < amount
  · rw [if_pos hlt] at h
    simp at h
  · rw [if_neg hlt] at h ⊢
    simp only [Bank.get_bankroll, if_pos rfl]
    cases hp : b.profiles (normalize_id id) with
    | some p => simp [hp]
    | none => simp [hp]

/-- `ensure_exists` never changes the default bankroll. -/
theorem ensure_exists_default (b : Bank) (id : List Char) :
    (b.ensure_exists id).default_bankroll = b.default_bankroll := by
  simp only [Bank.ensure_exists]
  cases h : b.profiles (normalize_id id) <;> rfl

/-- A buy-in for one id leaves every differently-normalized id's balance
unchanged (whether it succeeds or fails). -/
theorem buyin_other_balance (b : Bank) (id id2 : List Char) (amount : ℚ)
    (h : normalize_id id ≠ normalize_id id2) :
    (b.buyin id2 amount).1.get_bankroll id = b.get_bankroll id := by
  simp only [Bank.buyin, Bank.debit, normalize_id_idem]
  have hl := ensure_exists_lookup b (normalize_id id2)
  rw [normalize_id_idem] at hl
  rw [hl]
  dsimp only
  have hens := ensure_exists_lookup_ne b (normalize_id id2) (normalize_id id)
    (by rw [normalize_id_idem]; exact h)
  by_cases hlt : (match b.profiles (normalize_id id2) with
      | some p => p
      | none => b.default_bankroll) < amount
  · rw [if_pos hlt]
    simp only [Bank.get_bankroll]
    rw [hens, ensure_exists_default]
  · rw [if_neg hlt]
    simp only [Bank.get_bankroll]
    rw [if_neg h, hens, ensure_exists_default]

/-- C1 (amended): when a `Ready` message finds all seats ready but some
buy-in fails with insufficient funds, the handler reverts the room to
`Waiting`, resets every tracked ready flag to false except AI seats (which
are re-marked ready), and broadcasts exactly one error message; but the
buy-ins are not atomic: the bank keeps every mutation the loop made before
aborting — each player debited before the failing one stays debited (a
successful debit lowers the balance by the buy-in and later buy-ins for
other ids do not restore it), and no rollback occurs. -/
theorem C1_ready_failure_not_atomic (st : ServerState) (conn : Nat) (s : Nat)
    (e : InsufficientFunds)
    (hseat : st.room.seat_of_conn conn = some s)
    (hall : (st.room.set_ready s).all_ready = true)
    (hfail : (buyin_all st.bank (collect_player_ids (st.room.set_ready s) st.uname)
        (st.room.set_ready s).config.buy_in).2 = some e) :
    (process_ready st conn).1.room.status = TableStatus.Waiting
    ∧ ((process_ready st conn).2.filter is_error_msg).length = 1
    ∧ (∀ k, alist_lookup (process_ready st conn).1.room.ready k
        = if (alist_lookup (st.room.set_ready s).ai_players k).isSome then some true
          else (alist_lookup (st.room.set_ready s).ready k).map (fun _ => false))
    ∧ (process_ready st conn).1.bank
        = (buyin_all st.bank (collect_player_ids (st.room.set_ready s) st.uname)
            (st.room.set_ready s).config.buy_in).1
    ∧ (∀ (b : Bank) (id : List Char) (amount : ℚ),
        (b.debit id amount).2 = none →
          (b.debit id amount).1.get_bankroll id = b.get_bankroll id - amount)
    ∧ (∀ (b : Bank) (id id2 : List Char) (amount : ℚ),
        normalize_id id ≠ normalize_id id2 →
          (b.buyin id2 amount).1.get_bankroll id = b.get_bankroll id) := by
  rcases process_ready_cases st conn with ⟨hnone, _⟩ | ⟨s2, hseat2, hall2, _⟩ |
    ⟨s2, e2, hseat2, _, _, heq⟩ | ⟨s2, hseat2, _, hok, _⟩
  · rw [hseat] at hnone
    exact absurd hnone (by simp)
  · rw [hseat] at hseat2
    have hss : s = s2 := Option.some.inj hseat2
    rw [← hss] at hall2
    rw [hall] at hall2
    exact absurd hall2 (by simp)
  · rw [hseat] at hseat2
    have hss : s = s2 := Option.some.inj hseat2
    subst hss
    rw [heq]
    refine ⟨rfl, rfl, ?_, rfl, debit_success_balance, buyin_other_balance⟩
    intro k
    exact reset_ready_lookup (st.room.set_ready s) k
  · rw [hseat] at hseat2
    have hss : s = s2 := Option.some.inj hseat2
    rw [← hss] at hok
    rw [hok] at hfail
    exact absurd hfail (by simp)

/-- A concrete state triggering the buy-in failure: seats 0 and 1 taken by
connections 1 (alice, bankroll 100) and 2 (bob, bankroll 10), buy-in 50,
alice already ready. -/
def c1_state : ServerState :=
  { room :=
      { config := { id := ['t'], min_players := 2, max_players := 6, buy_in := 50 }
        players := [(0, 1), (1, 2)]
        ai_players := []
        ready := [(0, true), (1, false)]
        status := TableStatus.Waiting
        active_game := none }
    bank := Bank.mk
      (fun k => if k = ['a'] then some 100 else if k = ['b'] then some 10 else none) 1000
    uname := fun c => if c = 1 then ['a'] else ['b'] }

/-- C1 counterexample: in `c1_state`, bob's `Ready` makes all seats ready;
alice's buy-in succeeds (debiting her from 100 to 50) and then bob's fails,
so the handler aborts with one error and the room back in `Waiting` — but
alice's bank balance is NOT left unchanged: it remains 50, refuting the
claim that no player is debited. -/
theorem C1_counterexample :
    (process_ready c1_state 2).1.room.status = TableStatus.Waiting
    ∧ ((process_ready c1_state 2).2.filter is_error_msg).length = 1
    ∧ c1_state.bank.get_bankroll ['a'] = 100
    ∧ (process_ready c1_state 2).1.bank.get_bankroll ['a'] = 50
    ∧ ¬((process_ready c1_state 2).1.bank.get_bankroll ['a']
        = c1_state.bank.get_bankroll ['a']) := by
  have halice : (process_ready c1_state 2).1.bank.get_bankroll ['a'] = (100 : ℚ) - 50 := rfl
  have h100 : c1_state.bank.get_bankroll ['a'] = (100 : ℚ) := rfl
  refine ⟨rfl, rfl, h100, ?_, ?_⟩
  · rw [halice]
    norm_num
  · rw [halice, h100]
    norm_num

/-- C1 amended witness: the amended theorem applied at `c1_state` with
bob's `Ready`. -/
theorem C1_witness :
    (process_ready c1_state 2).1.room.status = TableStatus.Waiting
    ∧ ((process_ready c1_state 2).2.filter is_error_msg).length = 1
    ∧ (∀ k, alist_lookup (process_ready c1_state 2).1.room.ready k
        = if (alist_lookup (c1_state.room.set_ready 1).ai_players k).isSome then some true
          else (alist_lookup (c1_state.room.set_ready 1).ready k).map (fun _ => false))
    ∧ (process_ready c1_state 2).1.bank
        = (buyin_all c1_state.bank
            (collect_player_ids (c1_state.room.set_ready 1) c1_state.uname)
            (c1_state.room.set_ready 1).config.buy_in).1
    ∧ (∀ (b : Bank) (id : List Char) (amount : ℚ),
        (b.debit id amount).2 = none →
          (b.debit id amount).1.get_bankroll id = b.get_bankroll id - amount)
    ∧ (∀ (b : Bank) (id id2 : List Char) (amount : ℚ),
        normalize_id id ≠ normalize_id id2 →
          (b.buyin id2 amount).1.get_bankroll id = b.get_bankroll id) := by
  refine C1_ready_failure_not_atomic c1_state 2 1
    (InsufficientFunds.mk ['b'] 50 10) rfl rfl ?_
  have hfail : (buyin_all c1_state.bank
      (collect_player_ids (c1_state.room.set_ready 1) c1_state.uname)
      (c1_state.room.set_ready 1).config.buy_in).2
      = some (InsufficientFunds.mk ['b'] ((50 : ℚ)) ((10 : ℚ))) := by
    have hred : (buyin_all c1_state.bank
        (collect_player_ids (c1_state.room.set_ready 1) c1_state.uname)
        (c1_state.room.set_ready 1).config.buy_in).2
        = if (10 : ℚ) < 50 then some (InsufficientFunds.mk ['b'] 50 10) else none := rfl
    rw [hred, if_pos (by norm_num)]
  exact hfail

end TPoker
